import Mathlib

/-!
Verification development for the ElementaryJS core: the restriction and
desugaring pass (`src/ts/visitor.ts`) and the safety runtime layer
(`src/ts/runtime.ts`), shallowly embedded in Lean.

Modelling conventions:
* JS numbers are modelled as rationals (`Rat`).  The claims under study never
  depend on floating-point rounding, NaN or infinities; integer range checks
  (`(n | 0) !== n`) are modelled by a faithful ToInt32 on rationals.
* JS values are `RtVal`; objects and arrays live on an explicit `Heap` and are
  passed by reference (`RtVal.ref`), so writes performed by the runtime layer
  are explicit heap updates.
* A thrown `ElementaryRuntimeError` is `RTErr.elementary msg`; a host-level
  exception (e.g. a TypeError from reading a property of `null`) is
  `RTErr.host msg`.
* The stopify runner required by `stopifyArray` is modelled by a boolean flag
  (`runner`): when it is `false`, `getRunner()` yields the error case.
* Babel attaches a 1-based `loc` to parser nodes only; a node the pass builds
  has none, modelled as line 0.  A host exception escaping the compile-time
  traversal (e.g. `State.error` reading `loc.start` on a builder node) is
  recorded in a first-wins crash channel of the visitor state and surfaced at
  the compile boundary, where the real exception aborts everything.
-/

set_option maxRecDepth 20000
set_option linter.unusedVariables false
set_option linter.unreachableTactic false
set_option linter.unusedTactic false

attribute [local semireducible] Rat.add Rat.mul Rat.inv Rat.sub

namespace ElementaryJS

/-! ## JS numbers as rationals -/

/-- Truncation toward zero of a rational, as JS ToInt32 truncates. -/
def ratTrunc (q : Rat) : Int :=
  if q.num < 0 then -(((q.num.natAbs / q.den : Nat) : Int))
  else ((q.num.natAbs / q.den : Nat) : Int)

/-- The unsigned 32-bit representative of ToInt32's modular reduction. -/
def toUint32 (q : Rat) : Nat := ((ratTrunc q) % (4294967296 : Int)).toNat

/-- Reinterpret an unsigned 32-bit value as a signed one. -/
def int32OfUint32 (w : Nat) : Int :=
  if w < 2147483648 then (w : Int) else (w : Int) - 4294967296

/-- JS ToInt32: truncate toward zero, then reduce into [-2^31, 2^31). -/
def toInt32 (q : Rat) : Int := int32OfUint32 (toUint32 q)

/-- JS remainder `a % b` (truncated division remainder) on rationals. -/
def jsRem (a b : Rat) : Rat := a - b * ((ratTrunc (a / b) : Int) : Rat)

/-- Rendering of a number in an error message (exact for integers, which is
the only case the studied error messages exercise). -/
def jsNumToString (q : Rat) : String :=
  if q.den = 1 then toString q.num else toString q.num ++ "/" ++ toString q.den

/-! ## Runtime values and the heap -/

/-- A runtime value.  `ref` points into the heap; `splitFn` is the wrapped
string-split closure returned by `stopifyStringSplit`; `builtin` is a function
exported by the runtime module (used to model the module object `rts`). -/
inductive RtVal where
  | num (n : Rat)
  | str (s : String)
  | boolean (b : Bool)
  | undef
  | null
  | ref (addr : Nat)
  | splitFn (s : String)
  | builtin (name : String)
deriving DecidableEq, Repr

/-- A heap object: a JS array or a plain record object. -/
inductive HObj where
  | arr (elems : List RtVal)
  | obj (fields : List (String × RtVal))
deriving DecidableEq, Repr

abbrev Heap := List HObj

/-- A runtime failure: a thrown `ElementaryRuntimeError`, or a host-level
exception that the runtime layer let escape (e.g. a TypeError). -/
inductive RTErr where
  | elementary (msg : String)
  | host (msg : String)
deriving DecidableEq, Repr

/-- The fixed message `elementaryJSBug` puts in the error it throws (the
`what` argument is only traced to the console, never part of the message). -/
def elementaryJSBugMsg : String :=
  "You have encountered a potential bug in " ++
  "ElementaryJS. Please report this to the developers, " ++
  "along with the following stack trace:\n"

/-- `elementaryJSBug(what)`: throws an `ElementaryRuntimeError` with the fixed
report-this message. -/
def elementaryJSBug (what : String) : RTErr := RTErr.elementary elementaryJSBugMsg

/-- JS `typeof`. -/
def typeofStr : RtVal → String
  | .num _ => "number"
  | .str _ => "string"
  | .boolean _ => "boolean"
  | .undef => "undefined"
  | .null => "object"
  | .ref _ => "object"
  | .splitFn _ => "function"
  | .builtin _ => "function"

/-- Rendering of a value inside a template-literal error message. -/
def rtDisplay : RtVal → String
  | .num q => jsNumToString q
  | .str s => s
  | .boolean b => if b then "true" else "false"
  | .undef => "undefined"
  | .null => "null"
  | .ref _ => "[object Object]"
  | .splitFn _ => "function"
  | .builtin _ => "function"

/-- First binding of a key in a record object's field list. -/
def fieldLookup : List (String × RtVal) → String → Option RtVal
  | [], _ => none
  | (k0, v0) :: rest, k => if k0 = k then some v0 else fieldLookup rest k

/-- Overwrite the first binding of a key, or append a new one. -/
def fieldSet : List (String × RtVal) → String → RtVal → List (String × RtVal)
  | [], k, v => [(k, v)]
  | (k0, v0) :: rest, k, v =>
      if k0 = k then (k0, v) :: rest else (k0, v0) :: fieldSet rest k v

/-- A string that is the canonical decimal form of an array index. -/
def canonicalIndex (s : String) : Option Nat :=
  match s.toNat? with
  | some n => if toString n = s then some n else none
  | none => none

/-- A rational that is a valid non-negative array index, as a `Nat`. -/
def natOfRat : Rat → Option Nat :=
  fun q => if q.den = 1 ∧ 0 ≤ q.num then some q.num.toNat else none

/-- Property read on a JS array given a key value. -/
def arrGet (elems : List RtVal) : RtVal → RtVal
  | .num q =>
      match natOfRat q with
      | some i => elems.getD i .undef
      | none => .undef
  | .str s =>
      if s = "length" then .num (elems.length : Rat)
      else match canonicalIndex s with
           | some i => elems.getD i .undef
           | none => .undef
  | _ => (.undef)

/-- Property read on a record object given a key value. -/
def objGet (fields : List (String × RtVal)) : RtVal → RtVal
  | .str s => (fieldLookup fields s).getD .undef
  | .num q => (fieldLookup fields (jsNumToString q)).getD .undef
  | _ => (.undef)

/-- Property read on a string primitive (length, the `split` method and
single-character indexing; other prototype methods are outside the model). -/
def strGet (s : String) : RtVal → RtVal
  | .str k =>
      if k = "length" then .num (s.length : Rat)
      else if k = "split" then .splitFn s
      else match canonicalIndex k with
           | some i => ((s.toList.get? i).map fun c => RtVal.str (String.singleton c)).getD .undef
           | none => .undef
  | .num q =>
      match natOfRat q with
      | some i => ((s.toList.get? i).map fun c => RtVal.str (String.singleton c)).getD .undef
      | none => .undef
  | _ => (.undef)

/-- Property read on the value of a builtin function (only `Array.create`,
the static factory hanging off the exported `ArrayStub`, is modelled). -/
def builtinGet (name : String) : RtVal → RtVal
  | .str k => if name = "Array" ∧ k = "create" then .builtin "Array.create" else .undef
  | _ => (.undef)

/-- JS property read `base[key]`: a host TypeError on `null`/`undefined`,
otherwise a total lookup defaulting to `undefined`. -/
def hGetV (h : Heap) (base key : RtVal) : Except RTErr RtVal :=
  match base with
  | .undef => .error (.host ("Cannot read properties of undefined (reading '" ++ rtDisplay key ++ "')"))
  | .null => .error (.host ("Cannot read properties of null (reading '" ++ rtDisplay key ++ "')"))
  | .ref a =>
      match h.get? a with
      | some (.arr elems) => .ok (arrGet elems key)
      | some (.obj fields) => .ok (objGet fields key)
      | none => .error (.host "dangling reference")
  | .str s => .ok (strGet s key)
  | .builtin n => .ok (builtinGet n key)
  | _ => .ok (.undef)

/-- JS `base.hasOwnProperty(member)`: a host TypeError on `null`/`undefined`
(the method itself cannot be read), a boolean otherwise.  Note that it
distinguishes a present slot holding `undefined` from an absent one. -/
def hasOwn (h : Heap) (base member : RtVal) : Except RTErr Bool :=
  match base with
  | .undef => .error (.host "Cannot read properties of undefined (reading 'hasOwnProperty')")
  | .null => .error (.host "Cannot read properties of null (reading 'hasOwnProperty')")
  | .ref a =>
      match h.get? a with
      | some (.arr elems) =>
          match member with
          | .num q => .ok ((natOfRat q).elim false (fun i => i < elems.length))
          | .str s =>
              if s = "length" then .ok true
              else .ok ((canonicalIndex s).elim false (fun i => i < elems.length))
          | _ => .ok false
      | some (.obj fields) =>
          match member with
          | .str s => .ok (fieldLookup fields s).isSome
          | .num q => .ok (fieldLookup fields (jsNumToString q)).isSome
          | _ => .ok false
      | none => .error (.host "dangling reference")
  | .str s =>
      match member with
      | .str k =>
          if k = "length" then .ok true
          else .ok ((canonicalIndex k).elim false (fun i => i < s.length))
      | .num q => .ok ((natOfRat q).elim false (fun i => i < s.length))
      | _ => .ok false
  | _ => .ok false

/-- JS property write `base[member] = v` on heap values.  Only called by the
runtime layer after its validation has passed, so the non-matching cases
leave the heap unchanged. -/
def hSet (h : Heap) (base member v : RtVal) : Heap :=
  match base with
  | .ref a =>
      match h.get? a with
      | some (.arr elems) =>
          match member with
          | .num q =>
              match natOfRat q with
              | some i => if i < elems.length then h.set a (.arr (elems.set i v)) else h
              | none => h
          | .str s =>
              match canonicalIndex s with
              | some i => if i < elems.length then h.set a (.arr (elems.set i v)) else h
              | none => h
          | _ => h
      | some (.obj fields) =>
          match member with
          | .str s => h.set a (.obj (fieldSet fields s v))
          | .num q => h.set a (.obj (fieldSet fields (jsNumToString q) v))
          | _ => h
      | none => h
  | _ => h

/-- Is the value a reference to an array on the heap (`instanceof Array`)? -/
def isArrayRef (h : Heap) : RtVal → Bool
  | .ref a =>
      match h.get? a with
      | some (.arr _) => true
      | _ => false
  | _ => false

/-! ## The safety runtime layer (`src/ts/runtime.ts`) -/

/-- `stopifyArray(array)`: requires the stopify runner; allocates the wrapped
array on the heap (the wrapping itself is observationally the identity for
the operations under study). -/
def stopifyArray (runner : Bool) (h : Heap) (elems : List RtVal) :
    Except RTErr (Heap × RtVal) :=
  if runner then .ok (h ++ [.arr elems], .ref h.length)
  else .error (elementaryJSBug "Stopify not loaded")

/-- `dot(object, index)` with the index as a value (`checkMember` passes its
key through unchanged, so the general form is needed). -/
def dotV (h : Heap) (object key : RtVal) : Except RTErr RtVal :=
  if typeofStr object ≠ "object" ∧ typeofStr object ≠ "string" ∧
     typeofStr object ≠ "boolean" ∧ typeofStr object ≠ "number" then
    .error (.elementary "cannot access member of non-object value types")
  else
    match hGetV h object key with
    | .error e => .error e
    | .ok v =>
        if v = .undef then
          .error (.elementary ("object does not have member '" ++ rtDisplay key ++ "'"))
        else if typeofStr object = "string" ∧ key = .str "split" then
          match object with
          | .str s => .ok (.splitFn s)
          | _ => .ok v
        else .ok v

/-- `dot(object, index)` of the runtime layer. -/
def dot (h : Heap) (object : RtVal) (index : String) : Except RTErr RtVal :=
  dotV h object (.str index)

/-- `arrayBoundsCheck(object, index)` of the runtime layer: `instanceof Array`
first, then the non-negative-integer index check, then the populated-slot
check (a missing slot and a slot holding `undefined` both read as
`undefined`). -/
def arrayBoundsCheck (h : Heap) (object index : RtVal) : Except RTErr RtVal :=
  match object with
  | .ref a =>
      match h.get? a with
      | some (.arr elems) =>
          match index with
          | .num q =>
              if q < 0 ∨ jsRem q 1 ≠ 0 then
                .error (.elementary ("array index '" ++ rtDisplay index ++ "' is not valid"))
              else
                let e := elems.getD q.num.toNat .undef
                if e = .undef then
                  .error (.elementary ("index '" ++ rtDisplay index ++ "' is out of array bounds"))
                else .ok e
          | _ => .error (.elementary ("array index '" ++ rtDisplay index ++ "' is not valid"))
      | _ => .error (.elementary "array indexing called on a non-array value type")
  | _ => .error (.elementary "array indexing called on a non-array value type")

/-- `checkMember(o, k, v)`: rejects named writes on arrays, runs the read-side
validation of `dot`, then performs the write and returns the written value. -/
def checkMember (h : Heap) (o k v : RtVal) : Except RTErr (Heap × RtVal) :=
  if isArrayRef h o then
    .error (.elementary ("cannot set ." ++ rtDisplay k ++ " of an array"))
  else
    match dotV h o k with
    | .error e => .error e
    | .ok _ => .ok (hSet h o k v, v)

/-- `checkArray(o, k, v)`: the indexed-read validation, then the write. -/
def checkArray (h : Heap) (o k v : RtVal) : Except RTErr (Heap × RtVal) :=
  match arrayBoundsCheck h o k with
  | .error e => .error e
  | .ok _ => .ok (hSet h o k v, v)

/-- `updateOnlyNumbers(opcode, object)`: validates the operand is numeric
(returns `undefined`, as the source returns nothing). -/
def updateOnlyNumbers (opcode : String) (object : RtVal) : Except RTErr RtVal :=
  match object with
  | .num _ => .ok .undef
  | _ => .error (.elementary ("argument of operator '" ++ opcode ++ "' must be a number"))

/-- `checkNumberAndReturn(opcode, object)`. -/
def checkNumberAndReturn (opcode : String) (object : RtVal) : Except RTErr RtVal :=
  match object with
  | .num _ => .ok object
  | _ => .error (.elementary ("argument of operator '" ++ opcode ++ "' must be a number"))

/-- `checkUpdateOperand(opcode, obj, member)`: existence via
`obj.hasOwnProperty(member)` (a host TypeError when `obj` is
`null`/`undefined`), numeric check of the current value, then the layer
itself performs the increment or decrement and returns the new value. -/
def checkUpdateOperand (h : Heap) (opcode : String) (obj member : RtVal) :
    Except RTErr (Heap × RtVal) :=
  match hasOwn h obj member with
  | .error e => .error e
  | .ok has =>
      if has = false then
        match member with
        | .num q => .error (.elementary ("index '" ++ jsNumToString q ++ "' is out of array bounds"))
        | _ => .error (.elementary ("object does not have member '" ++ rtDisplay member ++ "'"))
      else
        match hGetV h obj member with
        | .error e => .error e
        | .ok cur =>
            match cur with
            | .num n =>
                if opcode = "++" then
                  .ok (hSet h obj member (.num (n + 1)), .num (n + 1))
                else if opcode = "--" then
                  .ok (hSet h obj member (.num (n - 1)), .num (n - 1))
                else .error (elementaryJSBug "UpdateOperand dynamic check")
            | _ => .error (.elementary ("argument of operator '" ++ opcode ++ "' must be a number"))

/-- `applyNumOrStringOp(op, lhs, rhs)`: both operands must be of the same
class, either both numbers or both strings; `+` adds or concatenates, any
other operator reaching the dispatch is an internal-consistency failure. -/
def applyNumOrStringOp (op : String) (lhs rhs : RtVal) : Except RTErr RtVal :=
  if ¬((typeofStr lhs = "string" ∧ typeofStr rhs = "string") ∨
       (typeofStr lhs = "number" ∧ typeofStr rhs = "number")) then
    .error (.elementary ("arguments of operator '" ++ op ++ "' must both be numbers or strings"))
  else
    if op = "+" then
      match lhs, rhs with
      | .num a, .num b => .ok (.num (a + b))
      | .str a, .str b => .ok (.str (a ++ b))
      | _, _ => .ok (.undef) -- unreachable: the guard forces both same class
    else .error (elementaryJSBug ("applyNumOrStringOp '" ++ op ++ "'"))

/-- `applyBinaryBooleanOp(op, lhs, rhs)`. -/
def applyBinaryBooleanOp (op : String) (lhs rhs : RtVal) : Except RTErr RtVal :=
  match lhs, rhs with
  | .boolean a, .boolean b =>
      if op = "&&" then .ok (.boolean (a && b))
      else if op = "||" then .ok (.boolean (a || b))
      else .error (elementaryJSBug ("applyBinaryBooleanOp '" ++ op ++ "'"))
  | _, _ => .error (.elementary ("arguments of operator '" ++ op ++ "' must both be booleans"))

/-- The arm of `applyNumOp`'s switch for two numbers (shift and bitwise
operators go through ToInt32/ToUint32 as in JS; `/` is exact rational
division, faithful for the non-zero denominators the claims exercise). -/
def applyNumOpArm (op : String) (a b : Rat) : Except RTErr RtVal :=
  if op = "-" then .ok (.num (a - b))
  else if op = "/" then .ok (.num (a / b))
  else if op = "*" then .ok (.num (a * b))
  else if op = ">" then .ok (.boolean (decide (a > b)))
  else if op = "<" then .ok (.boolean (decide (a < b)))
  else if op = ">=" then .ok (.boolean (decide (a ≥ b)))
  else if op = "<=" then .ok (.boolean (decide (a ≤ b)))
  else if op = ">>" then .ok (.num ((Int.fdiv (toInt32 a) (2 ^ (toUint32 b % 32)) : Int) : Rat))
  else if op = ">>>" then .ok (.num ((toUint32 a / 2 ^ (toUint32 b % 32) : Nat) : Rat))
  else if op = "<<" then .ok (.num ((int32OfUint32 ((toUint32 a <<< (toUint32 b % 32)) % 4294967296) : Int) : Rat))
  else if op = "|" then .ok (.num ((int32OfUint32 (toUint32 a ||| toUint32 b) : Int) : Rat))
  else if op = "&" then .ok (.num ((int32OfUint32 (toUint32 a &&& toUint32 b) : Int) : Rat))
  else if op = "^" then .ok (.num ((int32OfUint32 (toUint32 a ^^^ toUint32 b) : Int) : Rat))
  else if op = "%" then .ok (.num (jsRem a b))
  else .error (elementaryJSBug ("applyNumOp '" ++ op ++ "'"))

/-- `applyNumOp(op, lhs, rhs)`: both operands must be numbers. -/
def applyNumOp (op : String) (lhs rhs : RtVal) : Except RTErr RtVal :=
  match lhs, rhs with
  | .num a, .num b => applyNumOpArm op a b
  | _, _ => .error (.elementary ("arguments of operator '" ++ op ++ "' must both be numbers"))

/-- `arityCheck(name, expected, actual)`. -/
def arityCheck (name : String) (expected actual : Nat) : Except RTErr Unit :=
  if expected ≠ actual then
    .error (.elementary
      ("function " ++ name ++ " expected " ++ toString expected ++ " argument" ++
       (if expected = 1 then "" else "s") ++ " but received " ++ toString actual ++
       " argument" ++ (if actual = 1 then "" else "s")))
  else .ok ()

/-- The message thrown by the `ArrayStub` constructor (every direct
`new Array(...)` on the stub fails with it, regardless of arity). -/
def arrayStubCtorErr : RTErr := .elementary "use Array.create(length, init)"

namespace ArrayStub

/-- `Array.create(n, v)` (the static factory on the exported `ArrayStub`):
arity must be exactly two, `n` must be a number with `(n | 0) === n` and
`n > 0`; then an array of `n` copies of `v` is built and stopified. -/
def create (runner : Bool) (h : Heap) (args : List RtVal) :
    Except RTErr (Heap × RtVal) :=
  if args.length ≠ 2 then
    .error (.elementary (".create expects 2 arguments, received " ++ toString args.length))
  else
    match args.getD 0 .undef with
    | .num q =>
        if ((toInt32 q : Int) : Rat) ≠ q ∨ q ≤ 0 then
          .error (.elementary "array size must be a positive integer")
        else stopifyArray runner h (List.replicate q.num.toNat (args.getD 1 .undef))
    | _ => .error (.elementary "array size must be a positive integer")

end ArrayStub

/-! ## The embedded test harness -/

/-- A test record `{description, failed, error?}`. -/
structure TestResult where
  description : String
  failed : Bool
  error : Option String := none
deriving DecidableEq, Repr

/-- The harness's process-wide mutable state (`tests`, `testsEnabled`,
`timeoutMilli`), made explicit. -/
structure HarnessState where
  tests : List TestResult
  testsEnabled : Bool
  timeoutMilli : Nat
deriving DecidableEq, Repr

/-- `enableTests(enable, timeout = 3000)`: sets the enabled flag, clears all
outstanding records and sets the timeout. -/
def enableTests (st : HarnessState) (enable : Bool) (timeout : Nat) : HarnessState :=
  { st with testsEnabled := enable, tests := [], timeoutMilli := timeout }

/-- The structured result of `summary`. -/
structure SummaryResult where
  output : String
  style : List String
deriving DecidableEq, Repr

/-- One step of `summary`'s rendering loop over the records: output lines,
style entries (pushed only when styling was requested), pass and fail
counts. -/
def summaryStep (styleMark : String) (hasStyles : Bool)
    (acc : List String × List String × Nat × Nat) (result : TestResult) :
    List String × List String × Nat × Nat :=
  let output := acc.1
  let style := acc.2.1
  let numPassed := acc.2.2.1
  let numFailed := acc.2.2.2
  if result.failed then
    (output ++ [styleMark ++ " FAILED " ++ styleMark ++ " " ++ result.description ++
       "\n         " ++ result.error.getD ""],
     style ++ (if hasStyles then ["background-color: #f44336; font-weight: bold", ""] else []),
     numPassed, numFailed + 1)
  else
    (output ++ [styleMark ++ " OK " ++ styleMark ++ "     " ++ result.description],
     style ++ (if hasStyles then ["background-color: #2ac093; font-weight: bold", ""] else []),
     numPassed + 1, numFailed)

/-- `summary(hasStyles)`: when testing is disabled, the fixed "not enabled"
output; otherwise renders the accumulated records, then resets the harness
(`enableTests(false)`, which also clears the records). -/
def summary (st : HarnessState) (hasStyles : Bool) : SummaryResult × HarnessState :=
  if st.testsEnabled = false then
    ({ output := "Test not enabled", style := [] }, st)
  else
    let styleMark := if hasStyles then "%c" else ""
    if st.tests.length = 0 then
      ({ output := styleMark ++ "◈ You don't seem to have any tests written\n◈ To run a test, begin a function name with 'test'",
         style := if hasStyles then ["color: #e87ce8"] else [] },
       enableTests st false 3000)
    else
      let folded := st.tests.foldl (summaryStep styleMark hasStyles) ([], [], 0, 0)
      let output := folded.1
      let style := folded.2.1
      let numPassed := folded.2.2.1
      let numFailed := folded.2.2.2
      let withFooter :=
        if numFailed > 0 then
          (output ++ ["Tests:     " ++ styleMark ++ toString numFailed ++ " failed, " ++
             styleMark ++ toString numPassed ++ " passed, " ++ styleMark ++
             toString (numPassed + numFailed) ++ " total"],
           style ++ (if hasStyles then
             ["color: #f44336; font-weight: bold", "color: #2ac093; font-weight: bold",
              "font-weight: bold"] else []))
        else
          (output ++ ["Tests:     " ++ styleMark ++ toString numPassed ++ " passed, " ++
             styleMark ++ toString (numPassed + numFailed) ++ " total"],
           style ++ (if hasStyles then
             ["color: #2ac093; font-weight: bold", "font-weight: bold"] else []))
      ({ output := String.intercalate "\n" withFooter.1, style := withFooter.2 },
       enableTests st false 3000)

/-! ## The AST fragment consumed by the pass

The babel node kinds the studied claims exercise.  Every node carries the
line of its source location; nodes built by the pass itself have no source
location (babel leaves `loc` undefined on them), modelled as line 0.
A non-computed member (`o.x`, whose property the parser guarantees to be an
identifier) and a computed one (`o[e]`) are separate constructors, standing
for the babel `MemberExpression` with its `computed` flag false resp. true. -/

/-- A compile-time diagnostic `{line, message}`. -/
structure Diag where
  line : Nat
  message : String
deriving DecidableEq, Repr

/-- A variable declarator's binding target: a simple identifier or a
destructuring pattern. -/
inductive DeclId where
  | id (name : String)
  | pattern
deriving DecidableEq, Repr

inductive Expr where
  | ident (line : Nat) (name : String)
  | numLit (line : Nat) (value : Rat)
  | strLit (line : Nat) (value : String)
  | boolLit (line : Nat) (value : Bool)
  | nullLit (line : Nat)
  | objectLit (line : Nat) (fields : List (String × Expr))
  | member (line : Nat) (object : Expr) (propName : String)
  | indexE (line : Nat) (object : Expr) (propE : Expr)
  | callE (line : Nat) (callee : Expr) (args : List Expr)
  | newE (line : Nat) (callee : Expr) (args : List Expr)
  | assign (line : Nat) (op : String) (left : Expr) (right : Expr)
  | binary (line : Nat) (op : String) (left : Expr) (right : Expr)
  | unary (line : Nat) (op : String) (argument : Expr)
  | update (line : Nat) (op : String) (pre : Bool) (argument : Expr)
  | seqE (line : Nat) (exprs : List Expr)
deriving Repr

/-- A variable declarator (`id`, optional `init`). -/
structure Declr where
  line : Nat
  declId : DeclId
  init : Option Expr
deriving Repr

inductive Stmt where
  | exprStmt (line : Nat) (e : Expr)
  | varDecl (line : Nat) (kind : String) (decls : List Declr)
  | block (line : Nat) (body : List Stmt)
  | throwS (line : Nat) (argument : Expr)
deriving Repr

structure Program where
  body : List Stmt
deriving Repr

/-! ## The restriction and desugaring pass (`src/ts/visitor.ts`) -/

def generalOperators : List String := ["==", "!="]

def numOrStringOperators : List String := ["+"]

def numOperators : List String :=
  ["<=", ">=", "<", ">", "<<", ">>", ">>>", "-", "*", "/", "%", "&", "|", "^"]

def allowedBinaryOperators : List String :=
  generalOperators ++ numOrStringOperators ++ numOperators

/-- `unassign`: the binary operator of a compound assignment operator.  The
source throws an internal error on any other input; the pass only applies it
to the five compound operators, so the model returns the input unchanged
there. -/
def unassign (op : String) : String :=
  if op = "+=" then "+"
  else if op = "-=" then "-"
  else if op = "*=" then "*"
  else if op = "/=" then "/"
  else if op = "%=" then "%"
  else op

/-- The visitor state: the accumulated diagnostics (class `State`), the
generated-name counter of `generateUidIdentifier`, the `var` declarations
pushed raw onto the enclosing scope block (which babel does not revisit),
and the first host exception to escape the traversal, if any.  An exception
aborts the real traversal at once; the model records the first one and
discards everything else at the compile boundary, which is observationally
the same. -/
structure VS where
  diags : List Diag
  uid : Nat
  hoisted : List Stmt
  crashed : Option String

/-- An escaped host exception.  The first one wins: nothing that the model
keeps computing after it is observable. -/
def VS.crash (st : VS) (msg : String) : VS :=
  { st with crashed := some (st.crashed.getD msg) }

/-- `State.error`: read `path.node.loc.start.line`, then push the
diagnostic.  A node the pass itself built carries no `loc` (modelled as
line 0 — babel's parser lines are 1-based), so on such a node the read
itself escapes with a host TypeError before anything is pushed. -/
def VS.emit (st : VS) (line : Nat) (msg : String) : VS :=
  if line = 0 then st.crash "Cannot read properties of undefined (reading 'start')"
  else { st with diags := st.diags ++ [⟨line, msg⟩] }

/-- The name of the n-th generated temporary (babel's `_tmp`, `_tmp2`, ...
uniquified against the scope; the model numbers them by a counter). -/
def uidName (n : Nat) : String := "_tmp" ++ toString n

/-- `dynCheck(name, ...args)`: the call `rts.name(args)` into the runtime. -/
def dynCheck (name : String) (args : List Expr) : Expr :=
  .callE 0 (.member 0 (.ident 0 "rts") name) args

/-- Compilation options (`S.opts`). -/
structure Opts where
  isOnline : Bool
  runTests : Bool
deriving DecidableEq, Repr

/-- `rtsExpression`: the expression that loads the runtime system. -/
def rtsExpression (opts : Opts) : Expr :=
  if opts.isOnline then .ident 0 "elementaryjs"
  else .callE 0 (.ident 0 "require") [.strLit 0 "./runtime"]

/-- The `==`/`!=` normalization the BinaryExpression enter performs in place,
before the node's children are visited. -/
def binaryEnterOp (op : String) : String :=
  if op = "==" then "===" else if op = "!=" then "!==" else op

def isIdent : Expr → Bool
  | .ident _ _ => true
  | _ => false

/-- Is the expression a `MemberExpression` (computed or not)? -/
def isMemberish : Expr → Bool
  | .member _ _ _ => true
  | .indexE _ _ _ => true
  | _ => false

/-- Is the expression the bare identifier `Array`? -/
def isBareArray : Expr → Bool
  | .ident _ n => n = "Array"
  | _ => false

mutual

/-- Full babel visit (enter, children, exit) of an expression, in a context
where no parent suppresses the MemberExpression exit rewrite.  The fuel
decreases on every recursive call; running out of fuel marks the state with
a model-internal escape, so a compile that succeeds was fully traversed. -/
def visitExpr : Nat → Expr → VS → Expr × VS
  | 0, e, st => (e, st.crash "model-internal: traversal fuel exhausted")
  | fuel + 1, e, st =>
    match e with
    | .ident _ _ => (e, st)
    | .numLit _ _ => (e, st)
    | .strLit _ _ => (e, st)
    | .boolLit _ _ => (e, st)
    | .nullLit _ => (e, st)
    | .objectLit line fields =>
        let p := visitFields fuel fields st
        (.objectLit line p.1, p.2)
    | .member _ o name =>
        -- children: the object (the non-computed property is an identifier,
        -- which no visitor touches); exit: replace with rts.dot(o, "name")
        -- and skip the replacement
        let p := visitExpr fuel o st
        (dynCheck "dot" [p.1, .strLit 0 name], p.2)
    | .indexE _ o pe =>
        let p := visitExpr fuel o st
        let q := visitExpr fuel pe p.2
        (dynCheck "arrayBoundsCheck" [p.1, q.1], q.2)
    | .callE line callee args =>
        -- enter: a call whose callee is the bare name Array is rejected (no
        -- skip: the children are still visited and the node is kept);
        -- children of a CallExpression are all exempt from the member rewrite
        let st1 := if isBareArray callee then
          st.emit line "You must use the 'new' keyword to create a new array." else st
        let pc := visitSuppressed fuel callee st1
        let pa := visitSuppressedList fuel args pc.2
        (.callE line pc.1 pa.1, pa.2)
    | .newE line callee args =>
        -- children: a NewExpression is not among the member-rewrite skip
        -- cases, so a member callee or argument is rewritten
        let pc := visitExpr fuel callee st
        let pa := visitExprList fuel args pc.2
        -- exit: new Array(...) => new rts.SafeArray(...); the source writes
        -- `path.skip;` without calling it, so the replacement is requeued
        -- and fully revisited
        if isBareArray pc.1 then
          visitExpr fuel (.newE line (.member 0 (.ident 0 "rts") "SafeArray") pa.1) pa.2
        else (.newE line pc.1 pa.1, pa.2)
    | .assign line op left right =>
        if (["=", "+=", "-=", "*=", "/=", "%="].contains op) = false then
          -- enter: banned assignment operator; record and skip the subtree
          (e, st.emit line ("Do not use the '" ++ op ++ "' operator."))
        else if isIdent left = false ∧ isMemberish left = false then
          -- enter: target neither identifier nor member; record and skip
          (e, st.emit line "Do not use patterns")
        else if op = "=" then
          -- children: a member target is among the member-rewrite skip cases
          let pl := visitSuppressed fuel left st
          let pr := visitExpr fuel right pl.2
          -- exit: identifier target kept; member target becomes a checked
          -- write (skip: the replacement is not revisited)
          match pl.1 with
          | .member _ o name => (dynCheck "checkMember" [o, .strLit 0 name, pr.1], pr.2)
          | .indexE _ o pe => (dynCheck "checkArray" [o, pe, pr.1], pr.2)
          | _ => (.assign line "=" pl.1 pr.1, pr.2)
        else if isIdent left then
          -- enter: desugar `x op= rhs` to `x = x <op> rhs`; the replacement
          -- is requeued and fully revisited
          visitExpr fuel (.assign line "=" left (.binary 0 (unassign op) left right)) st
        else
          -- enter: desugar `e.x op= rhs` through a generated temporary; its
          -- `var` declaration is pushed raw onto the enclosing scope block,
          -- and the replacement sequence is requeued and fully revisited
          match left with
          | .member _ o name =>
              let tmp := uidName st.uid
              let st1 : VS := { st with
                uid := st.uid + 1,
                hoisted := st.hoisted ++ [.varDecl 0 "var" [⟨0, .id tmp, none⟩]] }
              visitExpr fuel (.seqE 0 [.assign 0 "=" (.ident 0 tmp) o,
                .assign 0 "=" (.member 0 (.ident 0 tmp) name)
                  (.binary 0 (unassign op) (.member 0 (.ident 0 tmp) name) right)]) st1
          | .indexE _ o pe =>
              let tmp := uidName st.uid
              let st1 : VS := { st with
                uid := st.uid + 1,
                hoisted := st.hoisted ++ [.varDecl 0 "var" [⟨0, .id tmp, none⟩]] }
              visitExpr fuel (.seqE 0 [.assign 0 "=" (.ident 0 tmp) o,
                .assign 0 "=" (.indexE 0 (.ident 0 tmp) pe)
                  (.binary 0 (unassign op) (.indexE 0 (.ident 0 tmp) pe) right)]) st1
          | _ => (e, st)
    | .binary line op left right =>
        if (allowedBinaryOperators.contains op) = false then
          -- enter: banned binary operator; record and skip the subtree
          (e, st.emit line ("Do not use the '" ++ op ++ "' operator."))
        else
          -- enter: ==/!= are normalized in place before the children visit
          let op2 := binaryEnterOp op
          let pl := visitExpr fuel left st
          let pr := visitExpr fuel right pl.2
          -- exit: dispatch on the operator class; ===/!== stay binary
          if numOrStringOperators.contains op2 then
            (dynCheck "applyNumOrStringOp" [.strLit 0 op2, pl.1, pr.1], pr.2)
          else if numOperators.contains op2 then
            (dynCheck "applyNumOp" [.strLit 0 op2, pl.1, pr.1], pr.2)
          else
            (.binary line op2 pl.1 pr.1, pr.2)
    | .unary line op argument =>
        -- enter: delete and typeof rejected (children still visited)
        let st1 := if op = "delete" ∨ op = "typeof" then
          st.emit line ("Do not use the '" ++ op ++ "' operator.") else st
        let pa := visitExpr fuel argument st1
        (.unary line op pa.1, pa.2)
    | .update line op pre argument =>
        -- enter: postfix rejected (no skip: children and exit still run);
        -- the argument is among the member-rewrite skip cases
        let st1 := if pre = false then
          st.emit line "Do not use post-increment or post-decrement operators." else st
        let pa := visitSuppressed fuel argument st1
        -- exit: identifier target sequenced with a numeric check; member
        -- target becomes one combined runtime call (both skipped)
        match pa.1 with
        | .ident _ _ =>
            (.seqE 0 [dynCheck "updateOnlyNumbers" [.strLit 0 op, pa.1],
              .update line op pre pa.1], pa.2)
        | .member _ o name =>
            (dynCheck "checkUpdateOperand" [.strLit 0 op, o, .strLit 0 name], pa.2)
        | .indexE _ o pe =>
            (dynCheck "checkUpdateOperand" [.strLit 0 op, o, pe], pa.2)
        | _ =>
            -- the source throws an internal `not an l-value` error here; the
            -- parser cannot produce this shape, and the model keeps the node
            (.update line op pre pa.1, pa.2)
    | .seqE line exprs =>
        let p := visitExprList fuel exprs st
        (.seqE line p.1, p.2)

/-- Visit of an expression whose member-exit rewrite a parent suppresses:
the left side of an assignment, the argument of an update expression, or any
child of a CallExpression.  Only the children are visited. -/
def visitSuppressed : Nat → Expr → VS → Expr × VS
  | 0, e, st => (e, st.crash "model-internal: traversal fuel exhausted")
  | fuel + 1, e, st =>
    match e with
    | .member line o name =>
        let p := visitExpr fuel o st
        (.member line p.1 name, p.2)
    | .indexE line o pe =>
        let p := visitExpr fuel o st
        let q := visitExpr fuel pe p.2
        (.indexE line p.1 q.1, q.2)
    | .ident _ _ => (e, st)
    | _ => visitExpr fuel e st

def visitExprList : Nat → List Expr → VS → List Expr × VS
  | 0, es, st => (es, st.crash "model-internal: traversal fuel exhausted")
  | _ + 1, [], st => ([], st)
  | fuel + 1, e :: rest, st =>
      let p := visitExpr fuel e st
      let q := visitExprList fuel rest p.2
      (p.1 :: q.1, q.2)

def visitSuppressedList : Nat → List Expr → VS → List Expr × VS
  | 0, es, st => (es, st.crash "model-internal: traversal fuel exhausted")
  | _ + 1, [], st => ([], st)
  | fuel + 1, e :: rest, st =>
      let p := visitSuppressed fuel e st
      let q := visitSuppressedList fuel rest p.2
      (p.1 :: q.1, q.2)

def visitFields : Nat → List (String × Expr) → VS → List (String × Expr) × VS
  | 0, fs, st => (fs, st.crash "model-internal: traversal fuel exhausted")
  | _ + 1, [], st => ([], st)
  | fuel + 1, (k, e) :: rest, st =>
      let p := visitExpr fuel e st
      let q := visitFields fuel rest p.2
      ((k, p.1) :: q.1, q.2)

def visitDeclrs : Nat → List Declr → VS → List Declr × VS
  | 0, ds, st => (ds, st.crash "model-internal: traversal fuel exhausted")
  | _ + 1, [], st => ([], st)
  | fuel + 1, d :: rest, st =>
      -- VariableDeclarator enter: a non-identifier binding is a destructuring
      -- pattern (the initializer check is then not reached); an identifier
      -- binding must have an initializer.  Children: the initializer.
      let st1 :=
        match d.declId with
        | .pattern => st.emit d.line "Do not use destructuring patterns."
        | .id x =>
            match d.init with
            | none => st.emit d.line ("You must initialize the variable '" ++ x ++ "'.")
            | some _ => st
      let p :=
        match d.init with
        | some e => let q := visitExpr fuel e st1; (some q.1, q.2)
        | none => ((none : Option Expr), st1)
      let rest2 := visitDeclrs fuel rest p.2
      ({ d with init := p.1 } :: rest2.1, rest2.2)

def visitStmt : Nat → Stmt → VS → Stmt × VS
  | 0, s, st => (s, st.crash "model-internal: traversal fuel exhausted")
  | fuel + 1, s, st =>
    match s with
    | .exprStmt line e =>
        let p := visitExpr fuel e st
        (.exprStmt line p.1, p.2)
    | .varDecl line kind decls =>
        -- VariableDeclaration: only the block-scoped kinds are allowed
        let st1 := if kind ≠ "let" ∧ kind ≠ "const" then
          st.emit line "Use 'let' or 'const' to declare a variable." else st
        let p := visitDeclrs fuel decls st1
        (.varDecl line kind p.1, p.2)
    | .block line body =>
        let p := visitStmtList fuel body st
        (.block line p.1, p.2)
    | .throwS line a =>
        let st1 := st.emit line "Do not use the 'throw' operator."
        let p := visitExpr fuel a st1
        (.throwS line p.1, p.2)

def visitStmtList : Nat → List Stmt → VS → List Stmt × VS
  | 0, ss, st => (ss, st.crash "model-internal: traversal fuel exhausted")
  | _ + 1, [], st => ([], st)
  | fuel + 1, s :: rest, st =>
      let p := visitStmt fuel s st
      let q := visitStmtList fuel rest p.2
      (p.1 :: q.1, q.2)

end

/-- The compile result's error object: `{kind: 'error', errors}`. -/
structure CompileError where
  kind : String
  errors : List Diag
deriving Repr

/-- How a compile fails: the `State` object thrown at program-root exit, or
a host exception escaping mid-traversal (see `VS.emit`). -/
inductive CompileFailure where
  | thrown (e : CompileError)
  | exception (msg : String)
deriving Repr

/-- The runtime-loader binding `var rts = <loader expression>;` prepended at
program exit. -/
def rtsDecl (opts : Opts) : Stmt :=
  .varDecl 0 "var" [⟨0, .id "rts", some (rtsExpression opts)⟩]

/-- Program enter (a fresh visitor state) followed by the traversal of the
body statements in order. -/
def visitProgramBody (fuel : Nat) (p : Program) : List Stmt × VS :=
  visitStmtList fuel p.body ⟨[], 0, [], none⟩

/-- The whole pass: traverse, append the raw-pushed temporaries (babel never
revisits them), prepend the runtime-loader binding when the body is
non-empty, and throw the aggregated `{kind: 'error', errors}` at program
exit exactly when a diagnostic was recorded.  A host exception escaping
mid-traversal propagates instead: program exit never runs, so neither the
loader binding nor the thrown error object is produced. -/
def compile (fuel : Nat) (opts : Opts) (p : Program) : Except CompileFailure Program :=
  let r := visitProgramBody fuel p
  let finalBody := r.1 ++ r.2.hoisted
  let withRts := if finalBody.length ≠ 0 then rtsDecl opts :: finalBody else finalBody
  match r.2.crashed with
  | some m => .error (.exception m)
  | none =>
      if r.2.diags.length > 0 then .error (.thrown ⟨"error", r.2.diags⟩)
      else .ok ⟨withRts⟩

/-! ## Evaluation of compiled programs

A small big-step evaluator for the instrumented output trees, used to settle
the run-time halves of the claims.  Straight-line programs only: block
scoping and functions are outside the evaluated fragment. -/

/-- Evaluation state: the variable environment and the heap, plus the flag
saying whether a stopify runner is installed. -/
structure EvalSt where
  env : List (String × RtVal)
  heap : Heap
  runner : Bool
deriving DecidableEq, Repr

def envLookup : List (String × RtVal) → String → Option RtVal
  | [], _ => none
  | (n0, v0) :: rest, n => if n0 = n then some v0 else envLookup rest n

/-- Assignment to a variable: overwrite the innermost binding (appending a
global when none exists, as raw JS assignment would). -/
def envAssign : List (String × RtVal) → String → RtVal → List (String × RtVal)
  | [], n, v => [(n, v)]
  | (n0, v0) :: rest, n, v =>
      if n0 = n then (n0, v) :: rest else (n0, v0) :: envAssign rest n v

/-- The names `src/ts/runtime.ts` exports: the runtime module object binds
each to the corresponding function.  `SafeArray` is not among them. -/
def moduleExports : List String :=
  ["version", "ElementaryRuntimeError", "Array", "arrayBoundsCheck", "dot",
   "checkCall", "stopifyArray", "updateOnlyNumbers", "checkNumberAndReturn",
   "elementaryJSBug", "checkMember", "checkArray", "checkUpdateOperand",
   "applyNumOrStringOp", "applyBinaryBooleanOp", "applyNumOp", "arityCheck",
   "ElementaryTestingError", "getRunner", "setRunner", "enableTests",
   "assert", "test", "summary"]

def moduleFields : List (String × RtVal) :=
  moduleExports.map (fun n => (n, RtVal.builtin n))

/-- Application of a runtime-layer function to evaluated arguments. -/
def applyBuiltin (runner : Bool) (h : Heap) (name : String) (args : List RtVal) :
    Except RTErr (Heap × RtVal) :=
  match name, args with
  | "dot", [o, k] => (dotV h o k).map (fun v => (h, v))
  | "arrayBoundsCheck", [o, i] => (arrayBoundsCheck h o i).map (fun v => (h, v))
  | "checkMember", [o, k, v] => checkMember h o k v
  | "checkArray", [o, k, v] => checkArray h o k v
  | "checkUpdateOperand", [.str op, o, m] => checkUpdateOperand h op o m
  | "updateOnlyNumbers", [.str op, v] => (updateOnlyNumbers op v).map (fun v => (h, v))
  | "applyNumOrStringOp", [.str op, a, b] => (applyNumOrStringOp op a b).map (fun v => (h, v))
  | "applyNumOp", [.str op, a, b] => (applyNumOp op a b).map (fun v => (h, v))
  | "applyBinaryBooleanOp", [.str op, a, b] => (applyBinaryBooleanOp op a b).map (fun v => (h, v))
  | "Array.create", a => ArrayStub.create runner h a
  | _, _ => .error (.host "model-internal: builtin application not modelled")

mutual

def evalExpr : Nat → Expr → EvalSt → Except RTErr (RtVal × EvalSt)
  | 0, _, _ => .error (.host "model-internal: evaluation fuel exhausted")
  | fuel + 1, e, s =>
    match e with
    | .ident _ n =>
        match envLookup s.env n with
        | some v => .ok (v, s)
        | none => .error (.host (n ++ " is not defined"))
    | .numLit _ q => .ok (.num q, s)
    | .strLit _ v => .ok (.str v, s)
    | .boolLit _ b => .ok (.boolean b, s)
    | .nullLit _ => .ok (.null, s)
    | .objectLit _ fields =>
        match evalFields fuel fields s with
        | .error er => .error er
        | .ok (vals, s1) =>
            .ok (.ref s1.heap.length, { s1 with heap := s1.heap ++ [.obj vals] })
    | .member _ o name =>
        match evalExpr fuel o s with
        | .error er => .error er
        | .ok (v, s1) =>
            match hGetV s1.heap v (.str name) with
            | .error er => .error er
            | .ok v2 => .ok (v2, s1)
    | .indexE _ o pe =>
        match evalExpr fuel o s with
        | .error er => .error er
        | .ok (v, s1) =>
            match evalExpr fuel pe s1 with
            | .error er => .error er
            | .ok (k, s2) =>
                match hGetV s2.heap v k with
                | .error er => .error er
                | .ok v2 => .ok (v2, s2)
    | .callE _ callee args =>
        match callee with
        | .ident _ "require" =>
            -- the standalone loader: require('./runtime') yields the module
            -- object binding every export by name
            .ok (.ref s.heap.length, { s with heap := s.heap ++ [.obj moduleFields] })
        | _ =>
            match evalExpr fuel callee s with
            | .error er => .error er
            | .ok (f, s1) =>
                match evalArgs fuel args s1 with
                | .error er => .error er
                | .ok (vs, s2) =>
                    match f with
                    | .builtin b =>
                        match applyBuiltin s2.runner s2.heap b vs with
                        | .error er => .error er
                        | .ok (h2, v) => .ok (v, { s2 with heap := h2 })
                    | .splitFn str =>
                        match vs with
                        | [.str sep] =>
                            match stopifyArray s2.runner s2.heap
                                ((str.splitOn sep).map RtVal.str) with
                            | .error er => .error er
                            | .ok (h2, v) => .ok (v, { s2 with heap := h2 })
                        | _ => .error (.host "model-internal: split call not modelled")
                    | _ => .error (.host "is not a function")
    | .newE _ callee args =>
        match evalExpr fuel callee s with
        | .error er => .error er
        | .ok (f, s1) =>
            match evalArgs fuel args s1 with
            | .error er => .error er
            | .ok (_, s2) =>
                match f with
                | .builtin "Array" => .error arrayStubCtorErr
                | _ => .error (.host "is not a constructor")
    | .assign _ op left right =>
        if op = "=" then
          match left with
          | .ident _ n =>
              match evalExpr fuel right s with
              | .error er => .error er
              | .ok (v, s1) => .ok (v, { s1 with env := envAssign s1.env n v })
          | .member _ o name =>
              match evalExpr fuel o s with
              | .error er => .error er
              | .ok (ov, s1) =>
                  match evalExpr fuel right s1 with
                  | .error er => .error er
                  | .ok (v, s2) => .ok (v, { s2 with heap := hSet s2.heap ov (.str name) v })
          | .indexE _ o pe =>
              match evalExpr fuel o s with
              | .error er => .error er
              | .ok (ov, s1) =>
                  match evalExpr fuel pe s1 with
                  | .error er => .error er
                  | .ok (k, s2) =>
                      match evalExpr fuel right s2 with
                      | .error er => .error er
                      | .ok (v, s3) => .ok (v, { s3 with heap := hSet s3.heap ov k v })
          | _ => .error (.host "invalid assignment target")
        else .error (.host "model-internal: compound assignment not compiled away")
    | .binary _ op l r =>
        match evalExpr fuel l s with
        | .error er => .error er
        | .ok (a, s1) =>
            match evalExpr fuel r s1 with
            | .error er => .error er
            | .ok (b, s2) =>
                if op = "===" then .ok (.boolean (decide (a = b)), s2)
                else if op = "!==" then .ok (.boolean (decide (a ≠ b)), s2)
                else .error (.host "model-internal: raw binary operator not modelled")
    | .unary _ op a =>
        match evalExpr fuel a s with
        | .error er => .error er
        | .ok (v, s1) =>
            if op = "!" then
              match v with
              | .boolean b => .ok (.boolean (!b), s1)
              | _ => .error (.host "model-internal: unary coercion not modelled")
            else if op = "-" then
              match v with
              | .num q => .ok (.num (-q), s1)
              | _ => .error (.host "model-internal: unary coercion not modelled")
            else if op = "+" then
              match v with
              | .num q => .ok (.num q, s1)
              | _ => .error (.host "model-internal: unary coercion not modelled")
            else .error (.host "model-internal: unary operator not modelled")
    | .update _ op pre a =>
        -- raw JS update; the pass guarantees the operand was checked numeric
        match a with
        | .ident _ n =>
            match envLookup s.env n with
            | some (.num q) =>
                let q2 := if op = "++" then q + 1 else q - 1
                .ok (if pre then .num q2 else .num q, { s with env := envAssign s.env n (.num q2) })
            | _ => .error (.host "model-internal: raw update coercion not modelled")
        | _ => .error (.host "model-internal: raw update on member not modelled")
    | .seqE _ exprs => evalSeq fuel exprs s

def evalSeq : Nat → List Expr → EvalSt → Except RTErr (RtVal × EvalSt)
  | 0, _, _ => .error (.host "model-internal: evaluation fuel exhausted")
  | _ + 1, [], _ => .error (.host "model-internal: empty sequence expression")
  | fuel + 1, [e], s => evalExpr fuel e s
  | fuel + 1, e :: rest, s =>
      match evalExpr fuel e s with
      | .error er => .error er
      | .ok (_, s1) => evalSeq fuel rest s1

def evalArgs : Nat → List Expr → EvalSt → Except RTErr (List RtVal × EvalSt)
  | 0, _, _ => .error (.host "model-internal: evaluation fuel exhausted")
  | _ + 1, [], s => .ok ([], s)
  | fuel + 1, e :: rest, s =>
      match evalExpr fuel e s with
      | .error er => .error er
      | .ok (v, s1) =>
          match evalArgs fuel rest s1 with
          | .error er => .error er
          | .ok (vs, s2) => .ok (v :: vs, s2)

def evalFields : Nat → List (String × Expr) → EvalSt →
    Except RTErr (List (String × RtVal) × EvalSt)
  | 0, _, _ => .error (.host "model-internal: evaluation fuel exhausted")
  | _ + 1, [], s => .ok ([], s)
  | fuel + 1, (k, e) :: rest, s =>
      match evalExpr fuel e s with
      | .error er => .error er
      | .ok (v, s1) =>
          match evalFields fuel rest s1 with
          | .error er => .error er
          | .ok (vs, s2) => .ok ((k, v) :: vs, s2)

end

mutual

def execStmt : Nat → Stmt → EvalSt → Except RTErr EvalSt
  | 0, _, _ => .error (.host "model-internal: evaluation fuel exhausted")
  | fuel + 1, s, st =>
    match s with
    | .exprStmt _ e =>
        match evalExpr fuel e st with
        | .error er => .error er
        | .ok (_, st1) => .ok st1
    | .varDecl _ kind decls => execDeclrs fuel kind decls st
    | .block _ body => execStmtList fuel body st
    | .throwS _ _ => .error (.host "model-internal: throw not modelled")

def execDeclrs : Nat → String → List Declr → EvalSt → Except RTErr EvalSt
  | 0, _, _, _ => .error (.host "model-internal: evaluation fuel exhausted")
  | _ + 1, _, [], st => .ok st
  | fuel + 1, kind, d :: rest, st =>
      match d.declId with
      | .pattern => .error (.host "model-internal: pattern binding not modelled")
      | .id n =>
          match d.init with
          | some e =>
              match evalExpr fuel e st with
              | .error er => .error er
              | .ok (v, st1) =>
                  execDeclrs fuel kind rest { st1 with env := (n, v) :: st1.env }
          | none =>
              -- an uninitialized `var` re-declaration keeps the hoisted
              -- binding's current value (the shape the pass generates for
              -- its temporaries); `let` introduces an undefined binding
              if kind = "var" ∧ (envLookup st.env n).isSome then
                execDeclrs fuel kind rest st
              else execDeclrs fuel kind rest { st with env := (n, .undef) :: st.env }

def execStmtList : Nat → List Stmt → EvalSt → Except RTErr EvalSt
  | 0, _, _ => .error (.host "model-internal: evaluation fuel exhausted")
  | _ + 1, [], st => .ok st
  | fuel + 1, s :: rest, st =>
      match execStmt fuel s st with
      | .error er => .error er
      | .ok st1 => execStmtList fuel rest st1

end

/-- Run an (instrumented) program from an empty environment and heap. -/
def evalProgram (runner : Bool) (fuel : Nat) (p : Program) : Except RTErr EvalSt :=
  execStmtList fuel p.body ⟨[], [], runner⟩

/-! ## The rewritten-operator invariant

`strictOnlyE e` says every `BinaryExpression` left in `e` carries `===` or
`!==` (the only binary operators a successful compile leaves behind: every
other allowed operator is replaced by a runtime dispatch call). -/

mutual

def strictOnlyE : Expr → Bool
  | .ident _ _ => true
  | .numLit _ _ => true
  | .strLit _ _ => true
  | .boolLit _ _ => true
  | .nullLit _ => true
  | .objectLit _ fields => strictOnlyFs fields
  | .member _ o _ => strictOnlyE o
  | .indexE _ o p => strictOnlyE o && strictOnlyE p
  | .callE _ c args => strictOnlyE c && strictOnlyEs args
  | .newE _ c args => strictOnlyE c && strictOnlyEs args
  | .assign _ _ l r => strictOnlyE l && strictOnlyE r
  | .binary _ op l r => (op == "===" || op == "!==") && strictOnlyE l && strictOnlyE r
  | .unary _ _ a => strictOnlyE a
  | .update _ _ _ a => strictOnlyE a
  | .seqE _ es => strictOnlyEs es

def strictOnlyEs : List Expr → Bool
  | [] => true
  | e :: rest => strictOnlyE e && strictOnlyEs rest

def strictOnlyFs : List (String × Expr) → Bool
  | [] => true
  | (_, e) :: rest => strictOnlyE e && strictOnlyFs rest

end

mutual

def strictOnlyS : Stmt → Bool
  | .exprStmt _ e => strictOnlyE e
  | .varDecl _ _ decls => strictOnlyDs decls
  | .block _ body => strictOnlySs body
  | .throwS _ a => strictOnlyE a

def strictOnlyDs : List Declr → Bool
  | [] => true
  | d :: rest => (match d.init with | some e => strictOnlyE e | none => true) && strictOnlyDs rest

def strictOnlySs : List Stmt → Bool
  | [] => true
  | s :: rest => strictOnlyS s && strictOnlySs rest

end

def strictOnlyProgram (p : Program) : Bool := strictOnlySs p.body

/-! ## Concrete programs used to settle the claims -/

/-- Standalone compilation options (`isOnline: false`). -/
def offline : Opts := ⟨false, false⟩

/-- The runtime-loader binding the pass prepends in standalone mode:
`var rts = require('./runtime');`. -/
def rtsDeclOffline : Stmt :=
  .varDecl 0 "var"
    [⟨0, .id "rts", some (.callE 0 (.ident 0 "require") [.strLit 0 "./runtime"])⟩]

/-- The program `new Array(3);`. -/
def pgmNewArray3 : Program :=
  ⟨[.exprStmt 1 (.newE 1 (.ident 1 "Array") [.numLit 1 3])]⟩

/-- What the pass makes of `new Array(3);`: the callee is rewritten to
`rts.SafeArray`, and because the NewExpression exit never calls
`path.skip()` (the source reads `path.skip;` without invoking it), the
replacement is revisited and its member callee is further instrumented into
`rts.dot(rts, 'SafeArray')`. -/
def compiledNewArray3 : Program :=
  ⟨[rtsDeclOffline,
    .exprStmt 1 (.newE 1
      (.callE 0 (.member 0 (.ident 0 "rts") "dot")
        [.ident 0 "rts", .strLit 0 "SafeArray"])
      [.numLit 1 3])]⟩

/-- The program `new Array(3, 0);`. -/
def pgmNewArray30 : Program :=
  ⟨[.exprStmt 1 (.newE 1 (.ident 1 "Array") [.numLit 1 3, .numLit 1 0])]⟩

/-- The rewritten form of `new Array(3, 0);`. -/
def compiledNewArray30 : Program :=
  ⟨[rtsDeclOffline,
    .exprStmt 1 (.newE 1
      (.callE 0 (.member 0 (.ident 0 "rts") "dot")
        [.ident 0 "rts", .strLit 0 "SafeArray"])
      [.numLit 1 3, .numLit 1 0])]⟩

/-- The one-statement program `1;`. -/
def pgmOne : Program := ⟨[.exprStmt 1 (.numLit 1 1)]⟩

/-- The successful rewrite of `1;`. -/
def compiledOne : Program := ⟨[rtsDeclOffline, .exprStmt 1 (.numLit 1 1)]⟩

/-- The program `throw 1;` (statically rejected). -/
def pgmThrow : Program := ⟨[.throwS 1 (.numLit 1 1)]⟩

/-- The program `1 == 2;`. -/
def pgmEq : Program :=
  ⟨[.exprStmt 1 (.binary 1 "==" (.numLit 1 1) (.numLit 1 2))]⟩

/-- The successful rewrite of `1 == 2;`: the equality is strict. -/
def compiledEq : Program :=
  ⟨[rtsDeclOffline, .exprStmt 1 (.binary 1 "===" (.numLit 1 1) (.numLit 1 2))]⟩

/-- `let cnt = 0; let o = {x: 4}; ((cnt = cnt + 1, o)).x <op>= 2;` — the
object sub-expression of the compound member assignment increments `cnt`,
so after evaluation `cnt` counts how often that sub-expression ran. -/
def objectOnceProgram (op : String) : Program :=
  ⟨[.varDecl 1 "let" [⟨1, .id "cnt", some (.numLit 1 0)⟩],
    .varDecl 2 "let" [⟨2, .id "o", some (.objectLit 2 [("x", .numLit 2 4)])⟩],
    .exprStmt 3 (.assign 3 op
      (.member 3 (.seqE 3 [.assign 3 "=" (.ident 3 "cnt")
        (.binary 3 "+" (.ident 3 "cnt") (.numLit 3 1)), .ident 3 "o"]) "x")
      (.numLit 3 2))]⟩

/-- A harness state with one passed and one failed record, testing enabled. -/
def harnessDemo : HarnessState :=
  ⟨[⟨"first", false, none⟩, ⟨"second", true, some "assertion failed"⟩], true, 3000⟩

/-! ## Basic lemmas about the traversal -/

theorem VS.emit_prefix (st : VS) (l : Nat) (m : String) :
    st.diags <+: (st.emit l m).diags := by
  unfold VS.emit
  split
  · exact List.prefix_rfl
  · exact List.prefix_append _ _

/-- `State.error` keeps an already-escaped exception: every branch leaves
the crash channel's `some` untouched. -/
theorem VS.emit_crash_mono (st : VS) (l : Nat) (m : String) {c : String}
    (h : st.crashed = some c) : (st.emit l m).crashed = some c := by
  unfold VS.emit VS.crash
  split <;> simp [h]

theorem VS.emit_hoisted (st : VS) (l : Nat) (m : String) :
    (st.emit l m).hoisted = st.hoisted := by
  unfold VS.emit VS.crash
  split <;> rfl

/-- Diagnostics only accumulate: every visit function's output diagnostic
list extends its input one. -/
theorem visit_diags_mono :
    ∀ fuel : Nat,
      (∀ e st, st.diags <+: (visitExpr fuel e st).2.diags) ∧
      (∀ e st, st.diags <+: (visitSuppressed fuel e st).2.diags) ∧
      (∀ es st, st.diags <+: (visitExprList fuel es st).2.diags) ∧
      (∀ es st, st.diags <+: (visitSuppressedList fuel es st).2.diags) ∧
      (∀ fs st, st.diags <+: (visitFields fuel fs st).2.diags) ∧
      (∀ ds st, st.diags <+: (visitDeclrs fuel ds st).2.diags) ∧
      (∀ s st, st.diags <+: (visitStmt fuel s st).2.diags) ∧
      (∀ ss st, st.diags <+: (visitStmtList fuel ss st).2.diags) := by
  intro fuel
  induction fuel with
  | zero =>
      refine ⟨?_, ?_, ?_, ?_, ?_, ?_, ?_, ?_⟩ <;> intro x st <;>
        simp only [visitExpr, visitSuppressed, visitExprList, visitSuppressedList,
          visitFields, visitDeclrs, visitStmt, visitStmtList] <;>
        exact List.prefix_rfl
  | succ n ih =>
      obtain ⟨ihE, ihP, ihL, ihPL, ihF, ihD, ihS, ihSL⟩ := ih
      refine ⟨?_, ?_, ?_, ?_, ?_, ?_, ?_, ?_⟩
      · intro e st
        cases e <;> simp only [visitExpr] <;>
          (repeat' split) <;>
            first
            | exact List.prefix_rfl
            | exact VS.emit_prefix _ _ _
            | (refine List.IsPrefix.trans ?_ (ihE _ _)
               first
               | exact List.prefix_rfl
               | exact VS.emit_prefix _ _ _
               | exact ihE _ _
               | exact ihP _ _
               | exact (ihE _ _).trans (ihL _ _)
               | exact (VS.emit_prefix _ _ _).trans (ihP _ _))
            | (refine List.IsPrefix.trans ?_ (ihL _ _)
               exact ihE _ _)
            | (refine List.IsPrefix.trans ?_ (ihPL _ _)
               first
               | exact ihP _ _
               | exact (VS.emit_prefix _ _ _).trans (ihP _ _))
            | (refine List.IsPrefix.trans ?_ (ihP _ _)
               first
               | exact List.prefix_rfl
               | exact VS.emit_prefix _ _ _)
            | exact ihF _ _
            | exact ihL _ _
            | exact ihE _ _
            | exact ihP _ _
      · intro e st
        cases e <;> simp only [visitSuppressed] <;>
          first
          | exact List.prefix_rfl
          | exact ihE _ _
          | exact (ihE _ _).trans (ihE _ _)
      · intro es st
        cases es <;> simp only [visitExprList]
        · exact List.prefix_rfl
        · exact (ihE _ _).trans (ihL _ _)
      · intro es st
        cases es <;> simp only [visitSuppressedList]
        · exact List.prefix_rfl
        · exact (ihP _ _).trans (ihPL _ _)
      · intro fs st
        cases fs with
        | nil => simp only [visitFields]; exact List.prefix_rfl
        | cons kv rest =>
            obtain ⟨k, e⟩ := kv
            simp only [visitFields]
            exact (ihE _ _).trans (ihF _ _)
      · intro ds st
        cases ds with
        | nil => simp only [visitDeclrs]; exact List.prefix_rfl
        | cons d rest =>
            simp only [visitDeclrs]
            (repeat' split) <;>
              first
              | exact (ihE _ _).trans (ihD _ _)
              | exact ihD _ _
              | exact (VS.emit_prefix _ _ _).trans ((ihE _ _).trans (ihD _ _))
              | exact (VS.emit_prefix _ _ _).trans (ihD _ _)
      · intro s st
        cases s <;> simp only [visitStmt] <;>
          (repeat' split) <;>
            first
            | exact ihE _ _
            | exact ihD _ _
            | exact ihSL _ _
            | exact (VS.emit_prefix _ _ _).trans (ihE _ _)
            | exact (VS.emit_prefix _ _ _).trans (ihD _ _)
      · intro ss st
        cases ss <;> simp only [visitStmtList]
        · exact List.prefix_rfl
        · exact (ihS _ _).trans (ihSL _ _)

/-- Two prefixes squeezed between equal endpoints are equalities. -/
theorem prefix_squeeze {a b c : List Diag} (h1 : a <+: b) (h2 : b <+: c)
    (hc : c = a) : b = a := by
  have hba : b.length ≤ a.length := by
    rw [← hc]
    exact h2.length_le
  exact (h1.eq_of_length (le_antisymm h1.length_le hba)).symm

/-- The escaped-exception channel is sticky: once the crash is set, every
visit function returns it unchanged (the first exception wins). -/
theorem visit_crash_mono :
    ∀ fuel : Nat,
      (∀ e st c, st.crashed = some c → (visitExpr fuel e st).2.crashed = some c) ∧
      (∀ e st c, st.crashed = some c → (visitSuppressed fuel e st).2.crashed = some c) ∧
      (∀ es st c, st.crashed = some c → (visitExprList fuel es st).2.crashed = some c) ∧
      (∀ es st c, st.crashed = some c → (visitSuppressedList fuel es st).2.crashed = some c) ∧
      (∀ fs st c, st.crashed = some c → (visitFields fuel fs st).2.crashed = some c) ∧
      (∀ ds st c, st.crashed = some c → (visitDeclrs fuel ds st).2.crashed = some c) ∧
      (∀ s st c, st.crashed = some c → (visitStmt fuel s st).2.crashed = some c) ∧
      (∀ ss st c, st.crashed = some c → (visitStmtList fuel ss st).2.crashed = some c) := by
  intro fuel
  induction fuel with
  | zero =>
      refine ⟨?_, ?_, ?_, ?_, ?_, ?_, ?_, ?_⟩ <;> intro x st c h <;>
        simp only [visitExpr, visitSuppressed, visitExprList, visitSuppressedList,
          visitFields, visitDeclrs, visitStmt, visitStmtList, VS.crash] <;>
        simp [h]
  | succ n ih =>
      obtain ⟨ihE, ihP, ihL, ihPL, ihF, ihD, ihS, ihSL⟩ := ih
      refine ⟨?_, ?_, ?_, ?_, ?_, ?_, ?_, ?_⟩
      · intro e st c h
        cases e <;> simp only [visitExpr] <;>
          (repeat' split) <;>
            first
            | exact h
            | exact VS.emit_crash_mono _ _ _ h
            | exact ihF _ _ _ h
            | exact ihL _ _ _ h
            | exact ihE _ _ _ h
            | exact ihE _ _ _ (ihE _ _ _ h)
            | exact ihL _ _ _ (ihE _ _ _ h)
            | exact ihE _ _ _ (ihL _ _ _ (ihE _ _ _ h))
            | exact ihPL _ _ _ (ihP _ _ _ h)
            | exact ihPL _ _ _ (ihP _ _ _ (VS.emit_crash_mono _ _ _ h))
            | exact ihE _ _ _ (ihP _ _ _ h)
            | exact ihE _ _ _ (VS.emit_crash_mono _ _ _ h)
            | exact ihP _ _ _ h
            | exact ihP _ _ _ (VS.emit_crash_mono _ _ _ h)
      · intro e st c h
        cases e <;> simp only [visitSuppressed] <;>
          first
          | exact h
          | exact ihE _ _ _ h
          | exact ihE _ _ _ (ihE _ _ _ h)
      · intro es st c h
        cases es <;> simp only [visitExprList]
        · exact h
        · exact ihL _ _ _ (ihE _ _ _ h)
      · intro es st c h
        cases es <;> simp only [visitSuppressedList]
        · exact h
        · exact ihPL _ _ _ (ihP _ _ _ h)
      · intro fs st c h
        cases fs with
        | nil => simp only [visitFields]; exact h
        | cons kv rest =>
            obtain ⟨k, e⟩ := kv
            simp only [visitFields]
            exact ihF _ _ _ (ihE _ _ _ h)
      · intro ds st c h
        cases ds with
        | nil => simp only [visitDeclrs]; exact h
        | cons d rest =>
            simp only [visitDeclrs]
            (repeat' split) <;>
              first
              | exact ihD _ _ _ h
              | exact ihD _ _ _ (VS.emit_crash_mono _ _ _ h)
              | exact ihD _ _ _ (ihE _ _ _ h)
              | exact ihD _ _ _ (ihE _ _ _ (VS.emit_crash_mono _ _ _ h))
      · intro s st c h
        cases s <;> simp only [visitStmt] <;>
          (repeat' split) <;>
            first
            | exact ihE _ _ _ h
            | exact ihSL _ _ _ h
            | exact ihD _ _ _ h
            | exact ihD _ _ _ (VS.emit_crash_mono _ _ _ h)
            | exact ihE _ _ _ (VS.emit_crash_mono _ _ _ h)
      · intro ss st c h
        cases ss <;> simp only [visitStmtList]
        · exact h
        · exact ihSL _ _ _ (ihS _ _ _ h)

/-- After `State.error` runs, the visitor state can never again look
untouched: either a diagnostic was pushed (a parser node, with a 1-based
line) or the host exception escaped (a pass-built node without `loc`). -/
theorem emit_not_clean {st res : VS} {l : Nat} {m : String}
    (hp : (st.emit l m).diags <+: res.diags)
    (hc : ∀ c, (st.emit l m).crashed = some c → res.crashed = some c)
    (hd : res.diags = st.diags) (hn : res.crashed = none) : False := by
  by_cases h0 : l = 0
  · have h1 : (st.emit l m).crashed =
        some (st.crashed.getD "Cannot read properties of undefined (reading 'start')") := by
      simp [VS.emit, h0, VS.crash]
    have h2 := hc _ h1
    rw [hn] at h2
    cases h2
  · have h2 : (st.emit l m).diags = st.diags ++ [⟨l, m⟩] := by
      simp [VS.emit, h0]
    have h3 := hp.length_le
    rw [hd, h2] at h3
    simp at h3

theorem emit_self_not_clean {st : VS} {l : Nat} {m : String}
    (hd : (st.emit l m).diags = st.diags)
    (hn : (st.emit l m).crashed = none) : False :=
  emit_not_clean List.prefix_rfl (fun _ hc => hc) hd hn

/-- If a later state's crash channel is empty, so was the earlier one's. -/
theorem crash_none_of_step {mid res : VS}
    (hstep : ∀ c, mid.crashed = some c → res.crashed = some c)
    (hn : res.crashed = none) : mid.crashed = none := by
  cases h : mid.crashed with
  | none => rfl
  | some c => rw [hstep c h] at hn; cases hn

@[simp] theorem strictOnlyE_dynCheck (name : String) (args : List Expr) :
    strictOnlyE (dynCheck name args) = strictOnlyEs args := by
  simp [dynCheck, strictOnlyE]

theorem strictOnlySs_append (a b : List Stmt) :
    strictOnlySs (a ++ b) = (strictOnlySs a && strictOnlySs b) := by
  induction a with
  | nil => simp [strictOnlySs]
  | cons s rest ih => simp [strictOnlySs, ih, Bool.and_assoc]

/-- Every `var` declaration the pass pushes raw onto the scope block is an
initializer-free temporary, so the hoisted list stays strict. -/
theorem visit_hoisted_strict :
    ∀ fuel : Nat,
      (∀ e st, strictOnlySs st.hoisted = true →
        strictOnlySs (visitExpr fuel e st).2.hoisted = true) ∧
      (∀ e st, strictOnlySs st.hoisted = true →
        strictOnlySs (visitSuppressed fuel e st).2.hoisted = true) ∧
      (∀ es st, strictOnlySs st.hoisted = true →
        strictOnlySs (visitExprList fuel es st).2.hoisted = true) ∧
      (∀ es st, strictOnlySs st.hoisted = true →
        strictOnlySs (visitSuppressedList fuel es st).2.hoisted = true) ∧
      (∀ fs st, strictOnlySs st.hoisted = true →
        strictOnlySs (visitFields fuel fs st).2.hoisted = true) ∧
      (∀ ds st, strictOnlySs st.hoisted = true →
        strictOnlySs (visitDeclrs fuel ds st).2.hoisted = true) ∧
      (∀ s st, strictOnlySs st.hoisted = true →
        strictOnlySs (visitStmt fuel s st).2.hoisted = true) ∧
      (∀ ss st, strictOnlySs st.hoisted = true →
        strictOnlySs (visitStmtList fuel ss st).2.hoisted = true) := by
  intro fuel
  induction fuel with
  | zero =>
      refine ⟨?_, ?_, ?_, ?_, ?_, ?_, ?_, ?_⟩ <;> intro x st h <;> exact h
  | succ n ih =>
      obtain ⟨ihE, ihP, ihL, ihPL, ihF, ihD, ihS, ihSL⟩ := ih
      refine ⟨?_, ?_, ?_, ?_, ?_, ?_, ?_, ?_⟩
      · intro e st h
        cases e <;> simp only [visitExpr] <;>
          (repeat' split) <;>
            first
            | exact h
            | exact ihE _ _ h
            | exact ihP _ _ h
            | exact ihL _ _ h
            | exact ihF _ _ h
            | exact ihE _ _ (ihE _ _ h)
            | exact ihE _ _ (ihP _ _ h)
            | exact ihL _ _ (ihE _ _ h)
            | exact ihPL _ _ (ihP _ _ h)
            | exact ihE _ _ (ihL _ _ (ihE _ _ h))
            | (rw [VS.emit_hoisted]; exact h)
            | exact ihE _ _ (by rw [VS.emit_hoisted]; exact h)
            | exact ihP _ _ (by rw [VS.emit_hoisted]; exact h)
            | exact ihPL _ _ (ihP _ _ (by rw [VS.emit_hoisted]; exact h))
            | exact ihE _ _ (by
                simpa [strictOnlySs_append, strictOnlySs, strictOnlyS,
                  strictOnlyDs] using h)
      · intro e st h
        cases e <;> simp only [visitSuppressed] <;>
          first
          | exact h
          | exact ihE _ _ h
          | exact ihE _ _ (ihE _ _ h)
      · intro es st h
        cases es <;> simp only [visitExprList]
        · exact h
        · exact ihL _ _ (ihE _ _ h)
      · intro es st h
        cases es <;> simp only [visitSuppressedList]
        · exact h
        · exact ihPL _ _ (ihP _ _ h)
      · intro fs st h
        cases fs with
        | nil => exact h
        | cons kv rest =>
            obtain ⟨k, e⟩ := kv
            simp only [visitFields]
            exact ihF _ _ (ihE _ _ h)
      · intro ds st h
        cases ds with
        | nil => exact h
        | cons d rest =>
            simp only [visitDeclrs]
            (repeat' split) <;>
              first
              | exact ihD _ _ h
              | exact ihD _ _ (ihE _ _ h)
              | exact ihD _ _ (by rw [VS.emit_hoisted]; exact h)
              | exact ihD _ _ (ihE _ _ (by rw [VS.emit_hoisted]; exact h))
      · intro s st h
        cases s <;> simp only [visitStmt] <;>
          (repeat' split) <;>
            first
            | exact ihE _ _ h
            | exact ihD _ _ h
            | exact ihSL _ _ h
            | exact ihD _ _ (by rw [VS.emit_hoisted]; exact h)
            | exact ihE _ _ (by rw [VS.emit_hoisted]; exact h)
      · intro ss st h
        cases ss <;> simp only [visitStmtList]
        · exact h
        · exact ihSL _ _ (ihS _ _ h)

/-- An allowed binary operator that the exit dispatch sends to neither
runtime call is one of the two strict comparison forms produced by the
enter-time normalization. -/
theorem binaryEnterOp_strict (op : String)
    (hall : ¬ allowedBinaryOperators.contains op = false)
    (h1 : ¬ numOrStringOperators.contains (binaryEnterOp op) = true)
    (h2 : ¬ numOperators.contains (binaryEnterOp op) = true) :
    ((binaryEnterOp op == "===") || (binaryEnterOp op == "!==")) = true := by
  have hall2 : allowedBinaryOperators.contains op = true := by
    revert hall
    cases allowedBinaryOperators.contains op <;> simp
  simp only [allowedBinaryOperators, generalOperators, numOrStringOperators,
    numOperators, List.contains_cons, List.contains_nil, List.cons_append,
    List.nil_append, Bool.or_eq_true, beq_iff_eq] at hall2
  rcases hall2 with rfl | rfl | rfl | rfl | rfl | rfl | rfl | rfl | rfl | rfl |
    rfl | rfl | rfl | rfl | rfl | rfl | rfl | h
  · revert h1 h2; decide
  · revert h1 h2; decide
  · revert h1 h2; decide
  · revert h1 h2; decide
  · revert h1 h2; decide
  · revert h1 h2; decide
  · revert h1 h2; decide
  · revert h1 h2; decide
  · revert h1 h2; decide
  · revert h1 h2; decide
  · revert h1 h2; decide
  · revert h1 h2; decide
  · revert h1 h2; decide
  · revert h1 h2; decide
  · revert h1 h2; decide
  · revert h1 h2; decide
  · revert h1 h2; decide
  · simp at h

set_option maxHeartbeats 1600000 in
/-- The heart of the operator-rewriting claim: whenever a visit records no
new diagnostic and lets no host exception escape, the expression (resp.
statement) it returns contains no binary node other than `===`/`!==`. -/
theorem visit_strict :
    ∀ fuel : Nat,
      (∀ e st, (visitExpr fuel e st).2.diags = st.diags →
        (visitExpr fuel e st).2.crashed = none →
        strictOnlyE (visitExpr fuel e st).1 = true) ∧
      (∀ e st, (visitSuppressed fuel e st).2.diags = st.diags →
        (visitSuppressed fuel e st).2.crashed = none →
        strictOnlyE (visitSuppressed fuel e st).1 = true) ∧
      (∀ es st, (visitExprList fuel es st).2.diags = st.diags →
        (visitExprList fuel es st).2.crashed = none →
        strictOnlyEs (visitExprList fuel es st).1 = true) ∧
      (∀ es st, (visitSuppressedList fuel es st).2.diags = st.diags →
        (visitSuppressedList fuel es st).2.crashed = none →
        strictOnlyEs (visitSuppressedList fuel es st).1 = true) ∧
      (∀ fs st, (visitFields fuel fs st).2.diags = st.diags →
        (visitFields fuel fs st).2.crashed = none →
        strictOnlyFs (visitFields fuel fs st).1 = true) ∧
      (∀ ds st, (visitDeclrs fuel ds st).2.diags = st.diags →
        (visitDeclrs fuel ds st).2.crashed = none →
        strictOnlyDs (visitDeclrs fuel ds st).1 = true) ∧
      (∀ s st, (visitStmt fuel s st).2.diags = st.diags →
        (visitStmt fuel s st).2.crashed = none →
        strictOnlyS (visitStmt fuel s st).1 = true) ∧
      (∀ ss st, (visitStmtList fuel ss st).2.diags = st.diags →
        (visitStmtList fuel ss st).2.crashed = none →
        strictOnlySs (visitStmtList fuel ss st).1 = true) := by
  intro fuel
  induction fuel with
  | zero =>
      refine ⟨?_, ?_, ?_, ?_, ?_, ?_, ?_, ?_⟩ <;> intro x st hd hn <;>
        simp [visitExpr, visitSuppressed, visitExprList, visitSuppressedList,
          visitFields, visitDeclrs, visitStmt, visitStmtList, VS.crash] at hn
  | succ n ih =>
      obtain ⟨ihE, ihP, ihL, ihPL, ihF, ihD, ihS, ihSL⟩ := ih
      obtain ⟨mE, mP, mL, mPL, mF, mD, mS, mSL⟩ := visit_diags_mono n
      obtain ⟨cE, cP, cL, cPL, cF, cD, cS, cSL⟩ := visit_crash_mono n
      refine ⟨?_, ?_, ?_, ?_, ?_, ?_, ?_, ?_⟩
      · intro e st
        cases e
        case binary l op left right =>
          simp only [visitExpr]
          split
          next hban =>
            intro hd hn
            exact (emit_self_not_clean hd hn).elim
          next hall =>
            split
            next hnos =>
              intro hd hn
              have n1 := crash_none_of_step (cE _ _) hn
              have e1 := prefix_squeeze (mE _ _) (mE _ _) hd
              have hL := ihE _ _ e1 n1
              have hR := ihE _ _ (hd.trans e1.symm) hn
              simp [strictOnlyE, strictOnlyEs, hL, hR]
            next hnos =>
              split
              next hnum =>
                intro hd hn
                have n1 := crash_none_of_step (cE _ _) hn
                have e1 := prefix_squeeze (mE _ _) (mE _ _) hd
                have hL := ihE _ _ e1 n1
                have hR := ihE _ _ (hd.trans e1.symm) hn
                simp [strictOnlyE, strictOnlyEs, hL, hR]
              next hnum =>
                intro hd hn
                have n1 := crash_none_of_step (cE _ _) hn
                have e1 := prefix_squeeze (mE _ _) (mE _ _) hd
                have hL := ihE _ _ e1 n1
                have hR := ihE _ _ (hd.trans e1.symm) hn
                have hop := binaryEnterOp_strict op hall hnos hnum
                simp [strictOnlyE, strictOnlyEs, hL, hR, hop]
        case assign l op left right =>
          cases left <;>
            (simp only [visitExpr] <;>
             (repeat' split) <;> intro hd hn <;>
               first
               | exact (emit_self_not_clean hd hn).elim
               | exact ihE _ _ hd hn
               | (exfalso
                  clear ihE ihP ihL ihPL ihF ihD ihS ihSL mE mP mL mPL mF mD mS mSL
                  clear cE cP cL cPL cF cD cS cSL
                  simp_all [isIdent, isMemberish]
                  done)
               | (have n1 := crash_none_of_step (cE _ _) hn
                  have e1 := prefix_squeeze (mP _ _) (mE _ _) hd
                  have h1 := ihP _ _ e1 n1
                  have h2 := ihE _ _ (hd.trans e1.symm) hn
                  clear ihE ihP ihL ihPL ihF ihD ihS ihSL mE mP mL mPL mF mD mS mSL
                  clear cE cP cL cPL cF cD cS cSL
                  clear hd hn e1 n1
                  simp_all [strictOnlyE, strictOnlyEs]
                  done))
        all_goals
          (simp only [visitExpr] <;>
           (repeat' split) <;> intro hd hn <;>
             first
             | exact (emit_self_not_clean hd hn).elim
             | exact (emit_not_clean (mE _ _) (cE _ _) hd hn).elim
             | exact (emit_not_clean (mP _ _) (cP _ _) hd hn).elim
             | exact (emit_not_clean ((mP _ _).trans (mPL _ _))
                 (fun c hc0 => cPL _ _ _ (cP _ _ _ hc0)) hd hn).elim
             | exact ihE _ _ hd hn
             | (have h1 := ihP _ _ hd hn
                clear ihE ihP ihL ihPL ihF ihD ihS ihSL mE mP mL mPL mF mD mS mSL
                clear cE cP cL cPL cF cD cS cSL
                clear hd hn
                simp_all [strictOnlyE, strictOnlyEs]
                done)
             | (have h1 := ihE _ _ hd hn
                clear ihE ihP ihL ihPL ihF ihD ihS ihSL mE mP mL mPL mF mD mS mSL
                clear cE cP cL cPL cF cD cS cSL
                clear hd hn
                simp_all [strictOnlyE, strictOnlyEs]
                done)
             | (have h1 := ihF _ _ hd hn
                clear ihE ihP ihL ihPL ihF ihD ihS ihSL mE mP mL mPL mF mD mS mSL
                clear cE cP cL cPL cF cD cS cSL
                clear hd hn
                simp_all [strictOnlyE]
                done)
             | (have h1 := ihL _ _ hd hn
                clear ihE ihP ihL ihPL ihF ihD ihS ihSL mE mP mL mPL mF mD mS mSL
                clear cE cP cL cPL cF cD cS cSL
                clear hd hn
                simp_all [strictOnlyE]
                done)
             | (have n1 := crash_none_of_step (cE _ _) hn
                have e1 := prefix_squeeze (mE _ _) (mE _ _) hd
                have h1 := ihE _ _ e1 n1
                have h2 := ihE _ _ (hd.trans e1.symm) hn
                clear ihE ihP ihL ihPL ihF ihD ihS ihSL mE mP mL mPL mF mD mS mSL
                clear cE cP cL cPL cF cD cS cSL
                clear hd hn e1 n1
                simp_all [strictOnlyE, strictOnlyEs]
                done)
             | (have n1 := crash_none_of_step (cPL _ _) hn
                have e1 := prefix_squeeze (mP _ _) (mPL _ _) hd
                have h1 := ihP _ _ e1 n1
                have h2 := ihPL _ _ (hd.trans e1.symm) hn
                clear ihE ihP ihL ihPL ihF ihD ihS ihSL mE mP mL mPL mF mD mS mSL
                clear cE cP cL cPL cF cD cS cSL
                clear hd hn e1 n1
                simp_all [strictOnlyE, strictOnlyEs]
                done)
             | (have n1 := crash_none_of_step (cL _ _) hn
                have e1 := prefix_squeeze (mE _ _) (mL _ _) hd
                have h1 := ihE _ _ e1 n1
                have h2 := ihL _ _ (hd.trans e1.symm) hn
                clear ihE ihP ihL ihPL ihF ihD ihS ihSL mE mP mL mPL mF mD mS mSL
                clear cE cP cL cPL cF cD cS cSL
                clear hd hn e1 n1
                simp_all [strictOnlyE, strictOnlyEs]
                done)
             | (have e1 := prefix_squeeze (mE _ _) ((mL _ _).trans (mE _ _)) hd
                have e2 := prefix_squeeze (mL _ _) (mE _ _) (hd.trans e1.symm)
                exact ihE _ _ (hd.trans ((e2.trans e1).symm)) hn)
             | (clear ihE ihP ihL ihPL ihF ihD ihS ihSL mE mP mL mPL mF mD mS mSL
                clear cE cP cL cPL cF cD cS cSL
                simp_all [strictOnlyE, strictOnlyEs]
                done))
      · intro e st
        cases e <;> simp only [visitSuppressed] <;> intro hd hn <;>
          first
          | exact ihE _ _ hd hn
          | (simp [strictOnlyE]; done)
          | (have h1 := ihE _ _ hd hn
             simp [strictOnlyE, h1]
             done)
          | (have n1 := crash_none_of_step (cE _ _) hn
             have e1 := prefix_squeeze (mE _ _) (mE _ _) hd
             have h1 := ihE _ _ e1 n1
             have h2 := ihE _ _ (hd.trans e1.symm) hn
             simp [strictOnlyE, h1, h2]
             done)
      · intro es st
        cases es <;> simp only [visitExprList] <;> intro hd hn
        · simp [strictOnlyEs]
        · have n1 := crash_none_of_step (cL _ _) hn
          have e1 := prefix_squeeze (mE _ _) (mL _ _) hd
          have h1 := ihE _ _ e1 n1
          have h2 := ihL _ _ (hd.trans e1.symm) hn
          simp [strictOnlyEs, h1, h2]
      · intro es st
        cases es <;> simp only [visitSuppressedList] <;> intro hd hn
        · simp [strictOnlyEs]
        · have n1 := crash_none_of_step (cPL _ _) hn
          have e1 := prefix_squeeze (mP _ _) (mPL _ _) hd
          have h1 := ihP _ _ e1 n1
          have h2 := ihPL _ _ (hd.trans e1.symm) hn
          simp [strictOnlyEs, h1, h2]
      · intro fs st
        cases fs with
        | nil => intro hd hn; simp [strictOnlyFs]
        | cons kv rest =>
            obtain ⟨k, e⟩ := kv
            simp only [visitFields]
            intro hd hn
            have n1 := crash_none_of_step (cF _ _) hn
            have e1 := prefix_squeeze (mE _ _) (mF _ _) hd
            have h1 := ihE _ _ e1 n1
            have h2 := ihF _ _ (hd.trans e1.symm) hn
            simp [strictOnlyFs, h1, h2]
      · intro ds st
        cases ds with
        | nil => intro hd hn; simp [strictOnlyDs]
        | cons d rest =>
            simp only [visitDeclrs]
            (repeat' split) <;> intro hd hn <;>
              first
              | exact (emit_not_clean (mD _ _) (cD _ _) hd hn).elim
              | exact (emit_not_clean ((mE _ _).trans (mD _ _))
                  (fun c hc0 => cD _ _ _ (cE _ _ _ hc0)) hd hn).elim
              | (have n1 := crash_none_of_step (cD _ _) hn
                 have e1 := prefix_squeeze (mE _ _) (mD _ _) hd
                 have h1 := ihE _ _ e1 n1
                 have h2 := ihD _ _ (hd.trans e1.symm) hn
                 simp [strictOnlyDs, h1, h2]
                 done)
              | (have h1 := ihD _ _ hd hn
                 simp [strictOnlyDs, h1]
                 done)
      · intro s st
        cases s <;> simp only [visitStmt] <;>
          (repeat' split) <;> intro hd hn <;>
            first
            | exact (emit_not_clean (mD _ _) (cD _ _) hd hn).elim
            | exact (emit_not_clean (mE _ _) (cE _ _) hd hn).elim
            | (have h1 := ihE _ _ hd hn
               simp [strictOnlyS, h1]
               done)
            | (have h1 := ihD _ _ hd hn
               simp [strictOnlyS, h1]
               done)
            | (have h1 := ihSL _ _ hd hn
               simp [strictOnlyS, h1]
               done)
      · intro ss st
        cases ss <;> simp only [visitStmtList] <;> intro hd hn
        · simp [strictOnlySs]
        · have n1 := crash_none_of_step (cSL _ _) hn
          have e1 := prefix_squeeze (mS _ _) (mSL _ _) hd
          have h1 := ihS _ _ e1 n1
          have h2 := ihSL _ _ (hd.trans e1.symm) hn
          simp [strictOnlySs, h1, h2]

/-- `compile` characterized without its let-bindings. -/
theorem compile_eq (fuel : Nat) (opts : Opts) (p : Program) :
    compile fuel opts p =
      match (visitProgramBody fuel p).2.crashed with
      | some m => .error (.exception m)
      | none =>
        if (visitProgramBody fuel p).2.diags.length > 0 then
          .error (.thrown ⟨"error", (visitProgramBody fuel p).2.diags⟩)
        else
          .ok ⟨if ((visitProgramBody fuel p).1 ++ (visitProgramBody fuel p).2.hoisted).length ≠ 0
               then rtsDecl opts :: ((visitProgramBody fuel p).1 ++ (visitProgramBody fuel p).2.hoisted)
               else (visitProgramBody fuel p).1 ++ (visitProgramBody fuel p).2.hoisted⟩ := rfl

/-- A traversal that dies with a host exception makes `compile` report
exactly that exception. -/
theorem compile_crashed (fuel : Nat) (opts : Opts) (p : Program) (m : String)
    (h : (visitProgramBody fuel p).2.crashed = some m) :
    compile fuel opts p = .error (.exception m) := by
  rw [compile_eq, h]

/-- A traversal that completes makes `compile` decide between the thrown
error object and the rewritten tree. -/
theorem compile_not_crashed (fuel : Nat) (opts : Opts) (p : Program)
    (h : (visitProgramBody fuel p).2.crashed = none) :
    compile fuel opts p =
      if (visitProgramBody fuel p).2.diags.length > 0 then
        .error (.thrown ⟨"error", (visitProgramBody fuel p).2.diags⟩)
      else
        .ok ⟨if ((visitProgramBody fuel p).1 ++ (visitProgramBody fuel p).2.hoisted).length ≠ 0
             then rtsDecl opts :: ((visitProgramBody fuel p).1 ++ (visitProgramBody fuel p).2.hoisted)
             else (visitProgramBody fuel p).1 ++ (visitProgramBody fuel p).2.hoisted⟩ := by
  rw [compile_eq, h]

/-- A successful compile's traversal ran to completion: no host exception
escaped. -/
theorem compile_ok_crashed_none (fuel : Nat) (opts : Opts) (p : Program) (t : Program)
    (hok : compile fuel opts p = .ok t) :
    (visitProgramBody fuel p).2.crashed = none := by
  cases hcr : (visitProgramBody fuel p).2.crashed with
  | none => rfl
  | some m => rw [compile_crashed fuel opts p m hcr] at hok; cases hok

/-- A successful compile leaves only strict binary operators in the tree. -/
theorem compile_ok_strict (fuel : Nat) (opts : Opts) (p : Program) (t : Program)
    (hok : compile fuel opts p = .ok t) : strictOnlyProgram t = true := by
  have hcr := compile_ok_crashed_none fuel opts p t hok
  rw [compile_not_crashed fuel opts p hcr] at hok
  by_cases hpos : (visitProgramBody fuel p).2.diags.length > 0
  · rw [if_pos hpos] at hok
    cases hok
  · rw [if_neg hpos] at hok
    have hd0 : (visitProgramBody fuel p).2.diags = [] :=
      List.length_eq_zero.mp (by omega)
    have hstrict : strictOnlySs (visitProgramBody fuel p).1 = true :=
      (visit_strict fuel).2.2.2.2.2.2.2 p.body ⟨[], 0, [], none⟩ hd0 hcr
    have hhoist : strictOnlySs (visitProgramBody fuel p).2.hoisted = true :=
      (visit_hoisted_strict fuel).2.2.2.2.2.2.2 p.body ⟨[], 0, [], none⟩ (by simp [strictOnlySs])
    have hrts : strictOnlyS (rtsDecl opts) = true := by
      cases hon : opts.isOnline <;>
        simp [rtsDecl, rtsExpression, hon, strictOnlyS, strictOnlyDs,
          strictOnlyE, strictOnlyEs]
    have ht := hok
    simp only [Except.ok.injEq] at ht
    rw [← ht]
    rcases Nat.eq_zero_or_pos
        ((visitProgramBody fuel p).1 ++ (visitProgramBody fuel p).2.hoisted).length with hz | hp
    · have hnileq : (visitProgramBody fuel p).1 ++ (visitProgramBody fuel p).2.hoisted = [] :=
        List.length_eq_zero.mp hz
      simp [strictOnlyProgram, hnileq, strictOnlySs]
    · have hne2 : ((visitProgramBody fuel p).1 ++ (visitProgramBody fuel p).2.hoisted).length ≠ 0 := by
        omega
      simp only [strictOnlyProgram]
      rw [if_pos hne2]
      simp [strictOnlySs, strictOnlySs_append, hstrict, hhoist, hrts]

/-- Rational helpers: truncation and the `% 1` integrality test on casts of
natural numbers. -/
theorem ratTrunc_natCast (i : Nat) : ratTrunc (i : Rat) = (i : Int) := by
  unfold ratTrunc
  rw [Rat.num_natCast, Rat.den_natCast]
  split
  · omega
  · simp

theorem jsRem_one_natCast (i : Nat) : jsRem (i : Rat) 1 = 0 := by
  simp [jsRem, ratTrunc_natCast]

theorem num_toNat_natCast (i : Nat) : ((i : Rat)).num.toNat = i := by
  rw [Rat.num_natCast]
  exact Int.toNat_natCast i

/-- The style accumulator of `summary`'s rendering loop stays empty when no
styling was requested. -/
theorem summary_fold_style (l : List TestResult) (mark : String)
    (acc : List String × List String × Nat × Nat) :
    (l.foldl (summaryStep mark false) acc).2.1 = acc.2.1 := by
  induction l generalizing acc with
  | nil => rfl
  | cons r rest ih =>
      rw [List.foldl_cons, ih]
      simp [summaryStep]
      split <;> simp

/-! ## The claims -/

/-- C1: for a traversal that ran to completion — no host exception escaped,
i.e. the final visitor state's crash channel is empty, which is the claim's
"after the Pass's traversal completes" (a pass-built node can make
`State.error` itself throw, cf. C4) — the compile result is the thrown
error object `{kind: 'error', errors}` with a non-empty diagnostic sequence
exactly when at least one diagnostic was recorded during the traversal; a
rewritten tree is returned only when no diagnostic exists; every failure is
that thrown object, carrying the diagnostics of the whole traversal, which
continues past a statement's diagnostics (the throw happens once, at
program-root exit). -/
theorem compile_error_iff_diagnostics :
    ∀ (fuel : Nat) (opts : Opts) (p : Program),
      (visitProgramBody fuel p).2.crashed = none →
      ((∃ t, compile fuel opts p = .ok t) ↔ (visitProgramBody fuel p).2.diags = []) ∧
      (∀ f, compile fuel opts p = .error f →
        ∃ ce, f = .thrown ce ∧ ce.kind = "error" ∧
          ce.errors = (visitProgramBody fuel p).2.diags ∧ ce.errors ≠ []) ∧
      (∀ s rest st, visitStmtList (fuel + 1) (s :: rest) st =
        ((visitStmt fuel s st).1 :: (visitStmtList fuel rest (visitStmt fuel s st).2).1,
         (visitStmtList fuel rest (visitStmt fuel s st).2).2)) := by
  intro fuel opts p hcr
  refine ⟨⟨?_, ?_⟩, ?_, ?_⟩
  · rintro ⟨t, ht⟩
    rw [compile_not_crashed fuel opts p hcr] at ht
    by_cases hpos : (visitProgramBody fuel p).2.diags.length > 0
    · rw [if_pos hpos] at ht
      cases ht
    · exact List.length_eq_zero.mp (by omega)
  · intro hnil
    rw [compile_not_crashed fuel opts p hcr, if_neg (by simp [hnil])]
    exact ⟨_, rfl⟩
  · intro f hf
    rw [compile_not_crashed fuel opts p hcr] at hf
    by_cases hpos : (visitProgramBody fuel p).2.diags.length > 0
    · rw [if_pos hpos] at hf
      simp only [Except.error.injEq] at hf
      refine ⟨⟨"error", (visitProgramBody fuel p).2.diags⟩, hf.symm, rfl, rfl, ?_⟩
      intro hnil
      have hnil2 : (visitProgramBody fuel p).2.diags = [] := hnil
      rw [hnil2] at hpos
      simp at hpos
    · rw [if_neg hpos] at hf
      cases hf
  · intro s rest st
    rfl

/-- C1 witness: `1;` compiles to a tree (its traversal records nothing and
completes), while `throw 1;` yields the thrown error object whose
diagnostic list is non-empty. -/
theorem compile_error_iff_diagnostics_witness :
    (∃ t, compile 9 offline pgmOne = .ok t) ∧
    (∃ ce, CompileFailure.thrown ⟨"error", [⟨1, "Do not use the 'throw' operator."⟩]⟩ =
        .thrown ce ∧ ce.kind = "error" ∧
        ce.errors = (visitProgramBody 9 pgmThrow).2.diags ∧ ce.errors ≠ []) :=
  ⟨(compile_error_iff_diagnostics 9 offline pgmOne rfl).1.mpr rfl,
   (compile_error_iff_diagnostics 9 offline pgmThrow rfl).2.1
     (.thrown ⟨"error", [⟨1, "Do not use the 'throw' operator."⟩]⟩) rfl⟩

/-- C2 counterexample: compiling `new Array(3);` does NOT fail with a
compile-time diagnostic — it succeeds, rewriting the callee (and, because
the NewExpression exit never actually calls `path.skip()`, instrumenting
the inserted callee member into `rts.dot(rts, 'SafeArray')`). -/
theorem newArray3_compiles_counterexample :
    compile 50 offline pgmNewArray3 = .ok compiledNewArray3 := rfl

/-- C2 amended: both `new Array(3);` and `new Array(3, 0);` compile without
diagnostics; evaluating either rewritten form fails at run time (the runtime
module exports no `SafeArray`, so the inserted `rts.dot(rts, 'SafeArray')`
raises `object does not have member 'SafeArray'`); the two-argument factory
`Array.create(3, 0)` is what succeeds and yields a 3-element array of
zeros. -/
theorem newArray3_runtime_behavior :
    compile 50 offline pgmNewArray3 = .ok compiledNewArray3 ∧
    evalProgram true 200 compiledNewArray3 =
      .error (.elementary "object does not have member 'SafeArray'") ∧
    compile 50 offline pgmNewArray30 = .ok compiledNewArray30 ∧
    evalProgram true 200 compiledNewArray30 =
      .error (.elementary "object does not have member 'SafeArray'") ∧
    ArrayStub.create true [] [.num 3, .num 0] =
      .ok ([.arr [.num 0, .num 0, .num 0]], .ref 0) :=
  ⟨rfl, rfl, rfl, rfl, rfl⟩

/-- C3: a compound assignment to a member target desugars to a sequence that
binds the evaluated object to a generated temporary and refers to that
temporary in both later member references (both for `.x` and `[e]` targets),
and evaluating the compiled form runs the object sub-expression exactly once
for each of the five compound operators (the `cnt` counter the object
expression increments ends at 1, although the property is referenced
twice). -/
theorem compound_member_assign_object_once :
    (∀ (fuel line lline : Nat) (op : String) (o : Expr) (name : String) (rhs : Expr) (st : VS),
      op ∈ ["+=", "-=", "*=", "/=", "%="] →
      visitExpr (fuel + 1) (.assign line op (.member lline o name) rhs) st =
        visitExpr fuel
          (.seqE 0 [.assign 0 "=" (.ident 0 (uidName st.uid)) o,
            .assign 0 "=" (.member 0 (.ident 0 (uidName st.uid)) name)
              (.binary 0 (unassign op) (.member 0 (.ident 0 (uidName st.uid)) name) rhs)])
          { st with
              uid := st.uid + 1,
              hoisted := st.hoisted ++ [.varDecl 0 "var" [⟨0, .id (uidName st.uid), none⟩]] }) ∧
    (∀ (fuel line lline : Nat) (op : String) (o pe rhs : Expr) (st : VS),
      op ∈ ["+=", "-=", "*=", "/=", "%="] →
      visitExpr (fuel + 1) (.assign line op (.indexE lline o pe) rhs) st =
        visitExpr fuel
          (.seqE 0 [.assign 0 "=" (.ident 0 (uidName st.uid)) o,
            .assign 0 "=" (.indexE 0 (.ident 0 (uidName st.uid)) pe)
              (.binary 0 (unassign op) (.indexE 0 (.ident 0 (uidName st.uid)) pe) rhs)])
          { st with
              uid := st.uid + 1,
              hoisted := st.hoisted ++ [.varDecl 0 "var" [⟨0, .id (uidName st.uid), none⟩]] }) ∧
    (∀ op, op ∈ ["+=", "-=", "*=", "/=", "%="] →
      ∃ t, compile 100 offline (objectOnceProgram op) = .ok t ∧
        ∃ fin, evalProgram true 100 t = .ok fin ∧
          envLookup fin.env "cnt" = some (.num 1)) := by
  refine ⟨?_, ?_, ?_⟩
  · intro fuel line lline op o name rhs st hop
    simp only [List.mem_cons, List.mem_singleton, List.not_mem_nil, or_false] at hop
    rcases hop with rfl | rfl | rfl | rfl | rfl <;> rfl
  · intro fuel line lline op o pe rhs st hop
    simp only [List.mem_cons, List.mem_singleton, List.not_mem_nil, or_false] at hop
    rcases hop with rfl | rfl | rfl | rfl | rfl <;> rfl
  · intro op hop
    simp only [List.mem_cons, List.mem_singleton, List.not_mem_nil, or_false] at hop
    rcases hop with rfl | rfl | rfl | rfl | rfl <;> exact ⟨_, rfl, _, rfl, by decide⟩

/-- C3 witness: the `+=` instance, with the object expression evaluated
exactly once. -/
theorem compound_member_assign_object_once_witness :
    ∃ t, compile 100 offline (objectOnceProgram "+=") = .ok t ∧
      ∃ fin, evalProgram true 100 t = .ok fin ∧
        envLookup fin.env "cnt" = some (.num 1) :=
  compound_member_assign_object_once.2.2 "+=" (by simp)

/-- C4 counterexample: the pass is not idempotent.  `1;` compiles, but
re-running the pass over the rewritten output returns no tree at all: the
prepended `var rts = require('./runtime')` declaration violates the
let/const rule, and recording that diagnostic reads `loc.start` off the
pass-built node, which has no `loc` — the second run dies with the escaped
host TypeError. -/
theorem pass_not_idempotent_counterexample :
    compile 50 offline pgmOne = .ok compiledOne ∧
    compile 50 offline compiledOne =
      .error (.exception "Cannot read properties of undefined (reading 'start')") :=
  ⟨rfl, rfl⟩

/-- C4 amended: within one run, most inserted runtime calls are skipped, but
re-running the pass over any successful non-empty output is never a no-op:
the output starts with the pass-built `var` runtime-loader binding, the
VariableDeclaration rule rejects `var`, and `State.error` then reads
`path.node.loc.start.line` on that builder node, which has no `loc` — so
every second run (with fuel to reach the first statement) dies with the
escaped host TypeError instead of returning any tree. -/
theorem second_run_fails_on_rewritten_output :
    ∀ fuel opts p t, compile fuel opts p = .ok t → t.body ≠ [] →
      ∀ fuel2 opts2, 2 ≤ fuel2 →
        compile fuel2 opts2 t =
          .error (.exception "Cannot read properties of undefined (reading 'start')") := by
  intro fuel opts p t hok hne fuel2 opts2 hf2
  have hcr0 := compile_ok_crashed_none fuel opts p t hok
  rw [compile_not_crashed fuel opts p hcr0] at hok
  have hbody : ∃ rest, t.body = rtsDecl opts :: rest := by
    by_cases hpos : (visitProgramBody fuel p).2.diags.length > 0
    · rw [if_pos hpos] at hok
      cases hok
    · rw [if_neg hpos] at hok
      simp only [Except.ok.injEq] at hok
      by_cases hlen :
          ((visitProgramBody fuel p).1 ++ (visitProgramBody fuel p).2.hoisted).length ≠ 0
      · refine ⟨(visitProgramBody fuel p).1 ++ (visitProgramBody fuel p).2.hoisted, ?_⟩
        rw [← hok]
        show (if _ then _ else _) = _
        rw [if_pos hlen]
      · exfalso
        apply hne
        rw [← hok]
        simp only [if_neg hlen]
        have : ((visitProgramBody fuel p).1 ++ (visitProgramBody fuel p).2.hoisted) = [] :=
          List.length_eq_zero.mp (by omega)
        simp [hlen, this]
  obtain ⟨rest, hb⟩ := hbody
  obtain ⟨n, rfl⟩ : ∃ n, fuel2 = n + 2 := ⟨fuel2 - 2, by omega⟩
  have hcrash : (visitProgramBody (n + 2) t).2.crashed =
      some "Cannot read properties of undefined (reading 'start')" := by
    unfold visitProgramBody
    rw [hb, show n + 2 = (n + 1) + 1 from rfl]
    simp only [visitStmtList]
    apply (visit_crash_mono (n + 1)).2.2.2.2.2.2.2 rest _ _
    simp only [rtsDecl, visitStmt]
    rw [if_pos (by simp)]
    apply (visit_crash_mono n).2.2.2.2.2.1 _ _ _
    simp [VS.emit, VS.crash]
  exact compile_crashed (n + 2) opts2 t _ hcrash

/-- C4 witness: the second run over the rewritten `1;` dies with the host
TypeError. -/
theorem second_run_fails_witness :
    compile 60 offline compiledOne =
      .error (.exception "Cannot read properties of undefined (reading 'start')") :=
  second_run_fails_on_rewritten_output 50 offline pgmOne compiledOne rfl
    (List.cons_ne_nil _ _) 60 offline (by omega)

/-- C5: `applyNumOrStringOp('+', lhs, rhs)` raises a runtime error exactly
when the operands are not of the same class (not both numbers and not both
strings); on two numbers it returns their sum, on two strings their
concatenation. -/
theorem applyNumOrStringOp_plus_spec :
    ∀ lhs rhs : RtVal,
      ((∃ e, applyNumOrStringOp "+" lhs rhs = .error e) ↔
        ¬((∃ a b, lhs = RtVal.num a ∧ rhs = RtVal.num b) ∨
          (∃ s t, lhs = RtVal.str s ∧ rhs = RtVal.str t))) ∧
      (∀ a b : Rat, lhs = RtVal.num a → rhs = RtVal.num b →
        applyNumOrStringOp "+" lhs rhs = .ok (.num (a + b))) ∧
      (∀ s t : String, lhs = RtVal.str s → rhs = RtVal.str t →
        applyNumOrStringOp "+" lhs rhs = .ok (.str (s ++ t))) := by
  intro lhs rhs
  refine ⟨?_, ?_, ?_⟩
  · cases lhs <;> cases rhs <;>
      simp [applyNumOrStringOp, typeofStr]
  · intro a b hl hr
    subst hl
    subst hr
    simp [applyNumOrStringOp, typeofStr]
  · intro s t hl hr
    subst hl
    subst hr
    simp [applyNumOrStringOp, typeofStr]

/-- C5 witness: 1 + 2 adds, "a" + "b" concatenates, 1 + "a" errors. -/
theorem applyNumOrStringOp_plus_spec_witness :
    applyNumOrStringOp "+" (.num 1) (.num 2) = .ok (.num 3) ∧
    applyNumOrStringOp "+" (.str "a") (.str "b") = .ok (.str "ab") ∧
    (∃ e, applyNumOrStringOp "+" (.num 1) (.str "a") = .error e) :=
  ⟨(applyNumOrStringOp_plus_spec (.num 1) (.num 2)).2.1 1 2 rfl rfl,
   (applyNumOrStringOp_plus_spec (.str "a") (.str "b")).2.2 "a" "b" rfl rfl,
   (applyNumOrStringOp_plus_spec (.num 1) (.str "a")).1.mpr (by simp)⟩

/-- C6 counterexample: `create(2^31, 0)` raises the runtime error although
2^31 is a positive integer — `(n | 0) !== n` rejects every length at or
above 2^31 (ToInt32 wraps it to a negative value). -/
theorem create_int32_counterexample :
    ArrayStub.create true [] [.num 2147483648, .num 0] =
      .error (.elementary "array size must be a positive integer") ∧
    (0 : Rat) < 2147483648 ∧ (2147483648 : Rat).den = 1 := by
  refine ⟨rfl, by norm_num, by decide⟩

/-- C6 amended: with a stopify runner installed, `create(n, v)` fails for
every call of arity other than two and for every `n` that is not a number,
not positive, or not an integer fixed by ToInt32 (in particular every
integer at or above 2^31); otherwise it builds an array of length `n` with
every element `v`.  An indexed read through `arrayBoundsCheck` fails for
every index that is not a non-negative integer and for every slot reading
as `undefined`, and otherwise returns the element. -/
theorem arrayBoundsCheck_create_spec :
    (∀ (h : Heap) (a : Nat) (elems : List RtVal) (q : Rat),
      h.get? a = some (.arr elems) → (q < 0 ∨ jsRem q 1 ≠ 0) →
      arrayBoundsCheck h (.ref a) (.num q) =
        .error (.elementary ("array index '" ++ jsNumToString q ++ "' is not valid"))) ∧
    (∀ (h : Heap) (a : Nat) (elems : List RtVal) (idx : RtVal),
      h.get? a = some (.arr elems) → (∀ q, idx ≠ .num q) →
      arrayBoundsCheck h (.ref a) idx =
        .error (.elementary ("array index '" ++ rtDisplay idx ++ "' is not valid"))) ∧
    (∀ (h : Heap) (a : Nat) (elems : List RtVal) (q : Rat),
      h.get? a = some (.arr elems) → ¬(q < 0 ∨ jsRem q 1 ≠ 0) →
      ((elems.getD q.num.toNat .undef = .undef →
        arrayBoundsCheck h (.ref a) (.num q) =
          .error (.elementary ("index '" ++ jsNumToString q ++ "' is out of array bounds"))) ∧
       (∀ v, elems.getD q.num.toNat .undef = v → v ≠ .undef →
        arrayBoundsCheck h (.ref a) (.num q) = .ok v))) ∧
    (∀ (runner : Bool) (h : Heap) (args : List RtVal), args.length ≠ 2 →
      ArrayStub.create runner h args =
        .error (.elementary (".create expects 2 arguments, received " ++ toString args.length))) ∧
    (∀ (runner : Bool) (h : Heap) (q : Rat) (v : RtVal),
      (((toInt32 q : Int) : Rat) ≠ q ∨ q ≤ 0) →
      ArrayStub.create runner h [.num q, v] =
        .error (.elementary "array size must be a positive integer")) ∧
    (∀ (runner : Bool) (h : Heap) (nv v : RtVal), (∀ q, nv ≠ RtVal.num q) →
      ArrayStub.create runner h [nv, v] =
        .error (.elementary "array size must be a positive integer")) ∧
    (∀ (h : Heap) (q : Rat) (v : RtVal),
      ((toInt32 q : Int) : Rat) = q → 0 < q →
      ArrayStub.create true h [.num q, v] =
        .ok (h ++ [.arr (List.replicate q.num.toNat v)], .ref h.length)) := by
  refine ⟨?_, ?_, ?_, ?_, ?_, ?_, ?_⟩
  · intro h a elems q hh hq
    simp only [List.get?_eq_getElem?] at hh
    simp [arrayBoundsCheck, hh, hq, rtDisplay]
  · intro h a elems idx hh hnn
    simp only [List.get?_eq_getElem?] at hh
    cases idx <;>
      first
      | exact absurd rfl (hnn _)
      | simp [arrayBoundsCheck, hh, rtDisplay]
  · intro h a elems q hh hq
    simp only [List.get?_eq_getElem?] at hh
    refine ⟨?_, ?_⟩
    · intro hu
      simp only [List.getD_eq_getElem?_getD] at hu
      simp [arrayBoundsCheck, hh, hq, hu, rtDisplay]
    · intro v hv hvne
      simp only [List.getD_eq_getElem?_getD] at hv
      simp [arrayBoundsCheck, hh, hq, hv, hvne, rtDisplay]
  · intro runner h args hlen
    simp [ArrayStub.create, hlen]
  · intro runner h q v hbad
    simp [ArrayStub.create, hbad]
  · intro runner h nv v hnn
    cases nv <;>
      first
      | exact absurd rfl (hnn _)
      | simp [ArrayStub.create]
  · intro h q v hint hpos
    have hcond : ¬(((toInt32 q : Int) : Rat) ≠ q ∨ q ≤ 0) := by
      push_neg
      exact ⟨hint, hpos⟩
    simp [ArrayStub.create, hcond, stopifyArray]

/-- C6 witness: `create(2, 7)` builds `[7, 7]`; index `-1` is rejected. -/
theorem arrayBoundsCheck_create_spec_witness :
    ArrayStub.create true [] [.num 2, .num 7] = .ok ([.arr [.num 7, .num 7]], .ref 0) ∧
    arrayBoundsCheck [.arr [.num 5]] (.ref 0) (.num (-1)) =
      .error (.elementary ("array index '" ++ jsNumToString (-1) ++ "' is not valid")) :=
  ⟨arrayBoundsCheck_create_spec.2.2.2.2.2.2 [] 2 (.num 7) (by decide) (by decide),
   arrayBoundsCheck_create_spec.1 [.arr [.num 5]] 0 [.num 5] (-1) rfl (by decide)⟩

/-- C7: every successful compile leaves no binary operator other than the
strict `===`/`!==` in the rewritten tree; `==`/`!=` are normalized to the
strict forms at enter time, before any further processing; `+` is dispatched
through `applyNumOrStringOp` and every other allowed numeric operator
through `applyNumOp`. -/
theorem successful_compile_strict_operators :
    (∀ fuel opts p t, compile fuel opts p = .ok t → strictOnlyProgram t = true) ∧
    (binaryEnterOp "==" = "===" ∧ binaryEnterOp "!=" = "!==") ∧
    (∀ (fuel line : Nat) (l r : Expr) (st : VS),
      visitExpr (fuel + 1) (.binary line "==" l r) st =
        (.binary line "===" (visitExpr fuel l st).1
           (visitExpr fuel r (visitExpr fuel l st).2).1,
         (visitExpr fuel r (visitExpr fuel l st).2).2)) ∧
    (∀ (fuel line : Nat) (l r : Expr) (st : VS),
      visitExpr (fuel + 1) (.binary line "+" l r) st =
        (dynCheck "applyNumOrStringOp" [.strLit 0 "+", (visitExpr fuel l st).1,
           (visitExpr fuel r (visitExpr fuel l st).2).1],
         (visitExpr fuel r (visitExpr fuel l st).2).2)) ∧
    (∀ op, op ∈ numOperators → ∀ (fuel line : Nat) (l r : Expr) (st : VS),
      visitExpr (fuel + 1) (.binary line op l r) st =
        (dynCheck "applyNumOp" [.strLit 0 op, (visitExpr fuel l st).1,
           (visitExpr fuel r (visitExpr fuel l st).2).1],
         (visitExpr fuel r (visitExpr fuel l st).2).2)) := by
  refine ⟨compile_ok_strict, ⟨rfl, rfl⟩, ?_, ?_, ?_⟩
  · intro fuel line l r st
    rfl
  · intro fuel line l r st
    rfl
  · intro op hop fuel line l r st
    simp only [numOperators, List.mem_cons, List.not_mem_nil, or_false] at hop
    rcases hop with rfl | rfl | rfl | rfl | rfl | rfl | rfl | rfl | rfl | rfl |
      rfl | rfl | rfl | rfl <;> rfl

/-- C7 witness: `1 == 2;` compiles and its rewritten tree (whose equality is
the strict `===`) satisfies the strict-only invariant. -/
theorem successful_compile_strict_operators_witness :
    strictOnlyProgram compiledEq = true :=
  successful_compile_strict_operators.1 50 offline pgmEq compiledEq rfl

/-- C8: the runtime layer does let host-level exceptions escape.  `dot` with
a `null` base passes the `typeof` guard (`typeof null` is `'object'`) and
the subsequent property read throws a raw TypeError, not the descriptive
`ElementaryRuntimeError`; `checkUpdateOperand` with an `undefined` base
crashes reading `hasOwnProperty`.  (`dot` on an `undefined` base, by
contrast, is caught by the guard and raises the descriptive error.) -/
theorem runtime_layer_host_exception_escape :
    dot [] .null "x" = .error (.host "Cannot read properties of null (reading 'x')") ∧
    checkUpdateOperand [] "++" .undef (.str "x") =
      .error (.host "Cannot read properties of undefined (reading 'hasOwnProperty')") ∧
    dot [] .undef ("x") = .error (.elementary "cannot access member of non-object value types") :=
  ⟨rfl, rfl, rfl⟩

/-- C9: when testing is enabled, `summary` disables testing and clears the
records (so an immediately following `summary` returns the "not enabled"
output with empty styling), `enableTests` always clears outstanding
records, and the style list is populated only when styled rendering was
requested. -/
theorem summary_consumable_once :
    ∀ (st : HarnessState) (hs : Bool), st.testsEnabled = true →
      ((summary st hs).2.testsEnabled = false) ∧
      ((summary st hs).2.tests = []) ∧
      (∀ hs2, (summary (summary st hs).2 hs2).1.output = "Test not enabled" ∧
              (summary (summary st hs).2 hs2).1.style = []) ∧
      (∀ (st2 : HarnessState) (b : Bool) (ti : Nat), (enableTests st2 b ti).tests = []) ∧
      (hs = false → (summary st hs).1.style = []) := by
  intro st hs hen
  have h2 : (summary st hs).2 = enableTests st false 3000 := by
    unfold summary
    rw [if_neg (by simp [hen])]
    dsimp only
    split <;> rfl
  refine ⟨by rw [h2]; rfl, by rw [h2]; rfl, ?_, ?_, ?_⟩
  · intro hs2
    constructor <;> (rw [h2]; rfl)
  · intro st2 b ti
    rfl
  · intro h0
    subst h0
    unfold summary
    rw [if_neg (by simp [hen])]
    dsimp only
    split
    · rfl
    · simp [summary_fold_style]
      split <;> rfl

/-- C9 witness: a two-record enabled harness, summarized without styling. -/
theorem summary_consumable_once_witness :
    (summary harnessDemo false).2.testsEnabled = false ∧
    (summary harnessDemo false).2.tests = [] ∧
    (summary (summary harnessDemo false).2 true).1.output = "Test not enabled" ∧
    (summary harnessDemo false).1.style = [] :=
  ⟨(summary_consumable_once harnessDemo false rfl).1,
   (summary_consumable_once harnessDemo false rfl).2.1,
   ((summary_consumable_once harnessDemo false rfl).2.2.1 true).1,
   (summary_consumable_once harnessDemo false rfl).2.2.2.2 rfl⟩

/-- C10: a present property (resp. populated array slot) holding the value
`undefined` is indistinguishable from an absent one at the runtime layer's
read interface: `dot` raises the "does not have member" error on a present
key bound to `undefined`, and `arrayBoundsCheck` raises the out-of-bounds
error on an in-range slot holding `undefined`. -/
theorem undefined_slot_indistinguishable :
    (∀ (h : Heap) (a : Nat) (fields : List (String × RtVal)) (k : String),
      h.get? a = some (.obj fields) →
      fieldLookup fields k = some .undef →
      dot h (.ref a) k =
        .error (.elementary ("object does not have member '" ++ k ++ "'"))) ∧
    (∀ (h : Heap) (a : Nat) (elems : List RtVal) (i : Nat),
      h.get? a = some (.arr elems) →
      elems.get? i = some .undef →
      arrayBoundsCheck h (.ref a) (.num (i : Rat)) =
        .error (.elementary ("index '" ++ jsNumToString (i : Rat) ++ "' is out of array bounds"))) := by
  constructor
  · intro h a fields k hh hlk
    simp only [List.get?_eq_getElem?] at hh
    simp [dot, dotV, typeofStr, hGetV, hh, objGet, hlk, rtDisplay]
  · intro h a elems i hh hei
    simp only [List.get?_eq_getElem?] at hh hei
    have hnn : ¬((i : Rat) < 0 ∨ jsRem (i : Rat) 1 ≠ 0) := by
      push_neg
      exact ⟨Nat.cast_nonneg i, jsRem_one_natCast i⟩
    have hg : (elems[((i : Rat)).num.toNat]?).getD RtVal.undef = RtVal.undef := by
      rw [num_toNat_natCast]
      simp [hei]
    simp [arrayBoundsCheck, hh, hnn, rtDisplay, List.getD_eq_getElem?_getD, hg, hei]

/-- C10 witness: a record with `k: undefined` and an array whose slot 0
holds `undefined`. -/
theorem undefined_slot_indistinguishable_witness :
    dot [.obj [("k", .undef)]] (.ref 0) "k" =
      .error (.elementary "object does not have member 'k'") ∧
    arrayBoundsCheck [.arr [.undef, .num 5]] (.ref 0) (.num 0) =
      .error (.elementary "index '0' is out of array bounds") :=
  ⟨undefined_slot_indistinguishable.1 [.obj [("k", .undef)]] 0 [("k", .undef)] "k" rfl rfl,
   undefined_slot_indistinguishable.2 [.arr [.undef, .num 5]] 0 [.undef, .num 5] 0 rfl rfl⟩

end ElementaryJS
